import Mathlib

/-!
Verification of the AI-Powered-Web-Test-Automation pipeline orchestrator.

This development shallowly embeds the repository's Python code:

* `genai_handler.py`: the response validator `parse_ai_test_cases`, the
  case synthesizer wrapper `generate_test_cases` and the script
  synthesizer wrapper `generate_selenium_script`, modelled concretely
  over a JSON/Python value type `Jv`, with Python's `json.loads`
  abstracted as a parameter `loads : String → Option Jv` and the
  network call outcome abstracted as an `ApiOutcome`.
* `app.py`: the generator function `process_website`, modelled as a pure
  function from an environment of external collaborators (`Env`) to the
  finite list of events the run produces: every `yield` of the Python
  generator becomes an `Event.yieldSnap` carrying the exact 7-field
  state tuple packaged by `current_outputs`, and every call to an
  external collaborator (scraper, synthesizers, exporters) is recorded
  as a call/persist event at the exact program point where it happens.

The external collaborators (`extract_elements` in `scraper.py`, the
exporters in `utils.py`, `json.dumps`, and the two GenAI wrappers as
seen from the orchestrator) are fields of `Env`: the orchestrator's
behaviour is proved for every behaviour of these collaborators, and the
concrete `generate_test_cases` / `generate_selenium_script` models are
plugged in where a claim is about them specifically.
-/

set_option maxHeartbeats 1000000

namespace WebTestGen

/-! ## Python/JSON values

Cells of the pandas DataFrames in the source hold arbitrary Python
values produced by `json.loads` (strings, numbers, booleans, `None`,
lists, dicts) plus the pandas `NaN` filler for cells missing from a
row's source dict.  `Jv` models exactly these. -/

/-- A Python value as produced by `json.loads`, plus the pandas `NaN`
cell filler.  Numbers are kept as their literal text (nothing in the
code computes with them). -/
inductive Jv where
  | null : Jv
  | nan : Jv
  | bool : Bool → Jv
  | num : String → Jv
  | str : String → Jv
  | arr : List Jv → Jv
  | obj : List (String × Jv) → Jv

mutual

/-- Python `repr` of a `Jv` (used by `str()` on containers).  String
escaping corner cases are not modelled; no string in the pipeline's
reserved vocabulary contains a quote. -/
def pyRepr : Jv → String
  | .null => "None"
  | .nan => "nan"
  | .bool true => "True"
  | .bool false => "False"
  | .num s => s
  | .str s => "\x27" ++ s ++ "\x27"
  | .arr xs => "[" ++ pyReprSep xs ++ "]"
  | .obj ps => "\x7b" ++ pyReprObjSep ps ++ "\x7d"

/-- Comma-separated `repr`s of the items of a Python list. -/
def pyReprSep : List Jv → String
  | [] => ""
  | [x] => pyRepr x
  | x :: y :: xs => pyRepr x ++ ", " ++ pyReprSep (y :: xs)

/-- Comma-separated `'key': repr(value)` items of a Python dict. -/
def pyReprObjSep : List (String × Jv) → String
  | [] => ""
  | [p] => "\x27" ++ p.1 ++ "\x27: " ++ pyRepr p.2
  | p :: q :: ps =>
      "\x27" ++ p.1 ++ "\x27: " ++ pyRepr p.2 ++ ", " ++ pyReprObjSep (q :: ps)

end

/-- Python `str()` of a `Jv`, as used when a cell value is interpolated
into an f-string log line. -/
def pyStr : Jv → String
  | .str s => s
  | v => pyRepr v

/-! ## Data model -/

/-- One row of the test-case DataFrame: the four columns
`Test Case ID`, `Test Scenario`, `Steps to Execute`, `Expected Result`
(in this order, enforced by `generate_test_cases`). -/
structure TestCase where
  id : Jv
  scenario : Jv
  steps : Jv
  expected : Jv

/-- One row of the scripts DataFrame: columns `Test Case ID` and
`Python Selenium Code`. -/
structure Script where
  test_case_id : Jv
  code : String

/-- The local state of one `process_website` run: exactly the seven
values packaged by the `current_outputs` helper (app.py lines 279-289).
`status_updates` is the log, one entry per appended line. -/
structure RunSt (E : Type) where
  elements_json_str : String
  test_cases_df : List TestCase
  scripts_df : List Script
  elements_filepath : Option String
  test_cases_filepath : Option String
  scripts_filepath : Option String
  status_updates : List String

/-- The empty initial state of a run (app.py lines 271-277). -/
def initSt (E : Type) : RunSt E :=
  { elements_json_str := "\x7b\x7d"
    test_cases_df := []
    scripts_df := []
    elements_filepath := none
    test_cases_filepath := none
    scripts_filepath := none
    status_updates := [] }

/-- Append one line to the run log (Python `status_updates.append`). -/
def addLog {E : Type} (st : RunSt E) (line : String) : RunSt E :=
  { st with status_updates := st.status_updates ++ [line] }

/-- One observable event of a run: a `yield` of the generator (carrying
the full state tuple), or a call to an external collaborator at the
program point where the source makes it. -/
inductive Event (E : Type) where
  | yieldSnap : RunSt E → Event E
  | callExtract : String → Event E
  | callCases : String → String → Nat → Event E
  | callScript : TestCase → String → String → Event E
  | persistElements : List E → String → Event E
  | persistTestCases : List TestCase → String → Event E
  | persistScripts : List Script → String → Event E

/-- The external collaborators of `process_website`, one field per
function it calls (scraper, GenAI wrappers, exporters, `json.dumps`).
The exporters return the artifact path, or `""` on a persist failure
(utils.py catches every exception and returns `""`). -/
structure Env (E : Type) where
  extract_elements : String → List E
  dumpsIndent4 : List E → String
  dumpsIndent2 : List E → String
  genTestCases : String → String → Nat → List TestCase
  genScript : TestCase → String → String → String
  save_elements_to_json : List E → String → String
  save_test_cases_to_excel : List TestCase → String → String
  save_scripts_to_excel : List Script → String → String

/-! ## Reserved error-marker ids

pandas `isin(['PARSE_ERROR', 'API_ERROR', 'ERROR'])` and
`'PARSE_ERROR' in df['Test Case ID'].values` compare each cell with the
reserved strings; only a string cell can be equal to one. -/

/-- Cell equals one of the reserved ids (app.py line 335 / 366). -/
def isReservedId : Jv → Bool
  | .str s => s == "PARSE_ERROR" || s == "API_ERROR" || s == "ERROR"
  | _ => false

/-- Cell equals `PARSE_ERROR` (app.py line 348). -/
def isParseError : Jv → Bool
  | .str s => s == "PARSE_ERROR"
  | _ => false

/-! ## Python string primitives

Implemented structurally over the character list so that they compute
by kernel reduction (Lean's built-in `String.startsWith`, `trim` and
`splitOn` are defined by well-founded recursion and do not). -/

/-- Python `s.split(c)` for a one-character separator. -/
def splitOnChar (c : Char) : List Char → List (List Char)
  | [] => [[]]
  | a :: as =>
      let r := splitOnChar c as
      if a == c then [] :: r
      else
        match r with
        | [] => [[a]]
        | g :: gs => (a :: g) :: gs

/-- Python `s.startswith(pre)`. -/
def pyStartsWith (s pre : String) : Bool := pre.data.isPrefixOf s.data

/-- Python `s.endswith(suf)`. -/
def pyEndsWith (s suf : String) : Bool :=
  suf.data.reverse.isPrefixOf s.data.reverse

/-- Python's `str.strip` whitespace set. -/
def isPySpace (c : Char) : Bool :=
  c == ' ' || c == '\t' || c == '\n' || c == '\x0d' || c == '\x0c' || c == '\x0b'

/-- Python `s.strip()`. -/
def pyStrip (s : String) : String :=
  ⟨((s.data.dropWhile isPySpace).reverse.dropWhile isPySpace).reverse⟩

/-- Python `s[n:]` (character slicing). -/
def pyDrop (s : String) (n : Nat) : String := ⟨s.data.drop n⟩

/-- Python `s[:-n]` (character slicing). -/
def pyDropRight (s : String) (n : Nat) : String :=
  ⟨s.data.take (s.data.length - n)⟩

/-! ## Filenames

`os.path.basename` splits on `/`; `.split('.')[0]` takes the part
before the first dot.  `os.path.basename(os.path.join("outputs", f))`
recovers `f` because `f` never contains a slash. -/

/-- Python `os.path.basename` (POSIX): the part after the last `/`. -/
def urlBasename (url : String) : String :=
  ⟨(splitOnChar '/' url.data).getLastD []⟩

/-- Python `os.path.basename(url).split('.')[0]`. -/
def urlStem (url : String) : String :=
  ⟨(splitOnChar '.' (urlBasename url).data).headD []⟩

/-! ## genai_handler.py -/

/-- The outcome of one `client.chat.completions.create` call, as seen
by the `try`/`except` blocks of `genai_handler.py`: the response
content on success, or the caught exception rendered as a string. -/
inductive ApiOutcome where
  | ok : String → ApiOutcome
  | rateLimit : String → ApiOutcome
  | apiError : String → ApiOutcome
  | exn : String → ApiOutcome

/-- The four required keys checked on the first parsed record
(genai_handler.py line 32). -/
def requiredKeys : List String :=
  ["Test Case ID", "Test Scenario", "Steps to Execute", "Expected Result"]

/-- Python `isinstance(item, dict)`. -/
def Jv.isObj : Jv → Bool
  | .obj _ => true
  | _ => false

/-- Python `k in d` for a dict value. -/
def objHasKey (k : String) : Jv → Bool
  | .obj kvs => kvs.any (fun p => p.1 == k)
  | _ => false

/-- Python `d[k]` lookup on a dict value, `none` when missing. -/
def objGet (k : String) : Jv → Option Jv
  | .obj kvs => (kvs.find? (fun p => p.1 == k)).map (fun p => p.2)
  | _ => none

/-- Model of `parse_ai_test_cases` (genai_handler.py lines 25-42):
`json.loads` the content; if the result is a list of dicts that is
non-empty and whose first dict has all four required keys, return the
parsed list; on a parse error or any other shape, fall through and
return `[]`.  `loads` abstracts Python's `json.loads` (returning `none`
for a `JSONDecodeError`). -/
def parse_ai_test_cases (loads : String → Option Jv) (response_content : String) :
    List Jv :=
  match loads response_content with
  | some (.arr items) =>
      if items.all Jv.isObj then
        if !items.isEmpty && requiredKeys.all (fun k => objHasKey k (items.headD .null)) then
          items
        else []
      else []
  | _ => []

/-- Whether a column named `k` exists in `pd.DataFrame(items)`: some
row's dict has the key. -/
def colPresent (items : List Jv) (k : String) : Bool := items.any (objHasKey k)

/-- The cell of row `item`, column `k`, after the column-normalisation
in `generate_test_cases` (lines 111-116): the dict's value when
present; pandas `NaN` when the column exists but this row's dict lacks
the key; the filler string `N/A` when no row has the key. -/
def cellOf (items : List Jv) (item : Jv) (k : String) : Jv :=
  if colPresent items k then (objGet k item).getD .nan else .str "N/A"

/-- Conversion of the parsed record list into the four-column DataFrame
rows (`generate_test_cases` lines 111-116: build the frame, fill
wholly-missing columns with `N/A`, select the four columns in order). -/
def toTestCases (items : List Jv) : List TestCase :=
  items.map (fun it =>
    { id := cellOf items it "Test Case ID"
      scenario := cellOf items it "Test Scenario"
      steps := cellOf items it "Steps to Execute"
      expected := cellOf items it "Expected Result" })

/-- Model of `generate_test_cases` (genai_handler.py lines 46-129).
`clientOk` is whether the module-level OpenAI client initialised
(line 58: if not, return an empty DataFrame).  `api` is the outcome of
the completions call; on success the content is stripped (line 99) and
fed to the validator; an empty validator result yields the single-row
`PARSE_ERROR` table carrying the content (line 108); the `except`
branches yield the single-row `API_ERROR` / `ERROR` tables. -/
def generate_test_cases (clientOk : Bool) (loads : String → Option Jv)
    (api : ApiOutcome) : List TestCase :=
  if !clientOk then []
  else
    match api with
    | .ok raw =>
        let response_content := pyStrip raw
        let test_cases_list := parse_ai_test_cases loads response_content
        if test_cases_list.isEmpty then
          [{ id := .str "PARSE_ERROR"
             scenario := .str "Failed to parse AI response"
             steps := .str response_content
             expected := .str "N/A" }]
        else toTestCases test_cases_list
    | .rateLimit e =>
        [{ id := .str "API_ERROR", scenario := .str "Rate Limit Reached"
           steps := .str e, expected := .str "N/A" }]
    | .apiError e =>
        [{ id := .str "API_ERROR", scenario := .str "API Communication Issue"
           steps := .str e, expected := .str "N/A" }]
    | .exn e =>
        [{ id := .str "ERROR", scenario := .str "Unexpected Error"
           steps := .str e, expected := .str "N/A" }]

/-- Model of `generate_selenium_script` (genai_handler.py lines
133-212): the fixed error string when the client is absent (line 147);
on success the stripped content with markdown fences removed (lines
191-197); the `except` branches return comment-style error strings. -/
def generate_selenium_script (clientOk : Bool) (api : ApiOutcome) : String :=
  if !clientOk then "Error: GenAI client not initialized."
  else
    match api with
    | .ok raw =>
        let script_code := pyStrip raw
        let script_code :=
          if pyStartsWith script_code "```python" then pyStrip (pyDrop script_code 9)
          else script_code
        let script_code :=
          if pyEndsWith script_code "```" then pyStrip (pyDropRight script_code 3)
          else script_code
        script_code
    | .rateLimit e => "# Error: API Rate Limit Reached\n# " ++ e
    | .apiError e => "# Error: API Communication Issue\n# " ++ e
    | .exn e => "# Error: Unexpected error during script generation\n# " ++ e

/-! ## app.py: the log lines

The exact strings appended to `status_updates`, one definition per
`status_updates.append` site of `process_website`. -/

/-- Line of app.py 293 (invalid URL). -/
def invalidUrlLine : String :=
  "❌ Error: Please enter a valid URL starting with http:// or https://"

/-- Line of app.py 298. -/
def startedLine : String := "▶️ Processing started..."

/-- Line of app.py 302. -/
def scrapingLine (url : String) : String :=
  "\n🔄 [1/3] Scraping UI elements from " ++ url ++ "..."

/-- Line of app.py 308 (extraction failure). -/
def extractFailLine : String :=
  "❌ Error: Failed to extract elements. Check URL or website structure."

/-- Line of app.py 315. -/
def extractedLine (cnt : Nat) (fp : String) : String :=
  "   ✅ Extracted " ++ toString cnt ++ " elements. Saved to " ++ fp

/-- Line of app.py 322 (truncation note, `max_elements_for_ai = 100`). -/
def truncNoteLine : String :=
  "   ℹ️ Note: Using first 100 elements for AI analysis due to size."

/-- Line of app.py 328. -/
def stage2Line (n : Nat) : String :=
  "\n🧠 [2/3] Generating " ++ toString n ++ " test cases using GenAI..."

/-- Line of app.py 338 (stage-2 failure warning). -/
def warnLine : String :=
  "   ⚠️ Warning: Failed to generate valid test cases or encountered an error. See table for details."

/-- Line of app.py 349 (critical stop). -/
def stopLine : String :=
  "   🛑 Stopping process due to critical test case generation failure."

/-- Line of app.py 356. -/
def tcSuccessLine (cnt : Nat) (fp : String) : String :=
  "   ✅ Generated " ++ toString cnt ++ " test cases. Saved to " ++ fp

/-- Line of app.py 361. -/
def stage3Line : String := "\n🐍 [3/3] Generating Selenium scripts..."

/-- Line of app.py 369. -/
def noValidLine : String :=
  "   ℹ️ No valid test cases found to generate scripts for (check previous warnings)."

/-- Line of app.py 372. -/
def mappingLine (cnt : Nat) : String :=
  "    Mapping " ++ toString cnt ++ " test cases to scripts..."

/-- Line of app.py 377 (per-case progress; the raw cell value is
rendered by Python `str()`). -/
def perCaseLine (tc : TestCase) : String :=
  "      ⏳ Generating script for: " ++ pyStr tc.id ++ "..."

/-- Line of app.py 394. -/
def scriptsSuccessLine (cnt : Nat) (fp : String) : String :=
  "   ✅ Generated " ++ toString cnt ++ " scripts. Saved to " ++ fp

/-- Line of app.py 398 (skip due to previous errors). -/
def skippingLine : String :=
  "   ℹ️ Skipping script generation due to previous errors in test case generation."

/-- Line of app.py 402. -/
def finishedLine : String := "\n\n🎉 Processing finished successfully!"

/-! ## app.py: the orchestrator -/

/-- Input check of app.py 292:
`if not url or not url.startswith(('http://', 'https://'))`. -/
def invalidInput (url : String) : Bool :=
  url == "" || !(pyStartsWith url "http://" || pyStartsWith url "https://")

/-- Failure detection of app.py 334-335: the table is empty or some
row's id is a reserved error marker. -/
def generationFailed (l : List TestCase) : Bool :=
  l.isEmpty || l.any (fun r => isReservedId r.id)

/-- The per-case loop of app.py 375-388: for each valid case in table
order, append the per-case line, yield, call the script synthesizer and
accumulate the `Script` record.  Returns the events, the accumulated
`scripts_data` and the state after the loop (only the log advanced). -/
def scriptLoop {E : Type} (g : TestCase → String → String → String)
    (payload url : String) :
    List TestCase → RunSt E → List (Event E) × List Script × RunSt E
  | [], st => ([], [], st)
  | tc :: rest, st =>
      let stl := addLog st (perCaseLine tc)
      let code := g tc payload url
      let r := scriptLoop g payload url rest stl
      (Event.yieldSnap stl :: Event.callScript tc payload url :: r.1,
       ⟨tc.id, code⟩ :: r.2.1, r.2.2)

/-- Completion of app.py 402-403: the final success line and terminal
yield. -/
def completion {E : Type} (st : RunSt E) : List (Event E) :=
  [Event.yieldSnap (addLog st finishedLine)]

/-- Stage 3 of app.py 360-403: filter the error rows out of the current
test-case table and branch on the three cases of lines 368/371/397. -/
def stage3 {E : Type} (env : Env E) (url payload stem : String)
    (generation_failed : Bool) (st : RunSt E) : List (Event E) :=
  let st6 := addLog st stage3Line
  let valid := st.test_cases_df.filter (fun r => !isReservedId r.id)
  Event.yieldSnap st6 ::
  (if valid.isEmpty && !generation_failed then
    let st7 := addLog st6 noValidLine
    Event.yieldSnap st7 :: completion st7
  else if !valid.isEmpty then
    let st7 := addLog st6 (mappingLine valid.length)
    let r := scriptLoop env.genScript payload url valid st7
    let scripts := r.2.1
    let sfname := "test_scripts_" ++ stem ++ ".xlsx"
    let sfp := env.save_scripts_to_excel scripts sfname
    let stF := { r.2.2 with
                 scripts_df := scripts
                 scripts_filepath := some sfp
                 status_updates :=
                   r.2.2.status_updates ++ [scriptsSuccessLine scripts.length sfp] }
    Event.yieldSnap st7 ::
      (r.1 ++ (Event.persistScripts scripts sfname :: Event.yieldSnap stF ::
        completion stF))
  else
    let st7 := addLog st6 skippingLine
    Event.yieldSnap st7 :: completion st7)

/-- The critical-failure check of app.py 348-351, performed on the
state's table after the warning yield: stop (one final yield) when the
table is empty or contains a `PARSE_ERROR` row, otherwise fall through
to stage 3 with `generation_failed = True`. -/
def stage2crit {E : Type} (env : Env E) (url payload stem : String)
    (st7 : RunSt E) : List (Event E) :=
  if st7.test_cases_df.isEmpty || st7.test_cases_df.any (fun r => isParseError r.id) then
    [Event.yieldSnap (addLog st7 stopLine)]
  else stage3 env url payload stem true st7

/-- Stage 2 of app.py 327-357: announce, call the case synthesizer,
and branch on `generation_failed` (warning path with optional persist
of the error table, then the critical check) or the success path
(persist, success line, stage 3). -/
def stage2 {E : Type} (env : Env E) (url payload stem : String)
    (num_test_cases : Nat) (st4 : RunSt E) : List (Event E) :=
  let st5 := addLog st4 (stage2Line num_test_cases)
  let generated := env.genTestCases payload url num_test_cases
  Event.yieldSnap st5 :: Event.callCases payload url num_test_cases ::
  (if generationFailed generated then
    let st6 := addLog st5 warnLine
    if !generated.isEmpty then
      let tfname := "test_cases_" ++ stem ++ "_error.xlsx"
      let tfp := env.save_test_cases_to_excel generated tfname
      let st7 := { st6 with test_cases_df := generated, test_cases_filepath := some tfp }
      Event.persistTestCases generated tfname :: Event.yieldSnap st7 ::
        stage2crit env url payload stem st7
    else
      let st7 := { st6 with test_cases_filepath := none }
      Event.yieldSnap st7 :: stage2crit env url payload stem st7
  else
    let tfname := "test_cases_" ++ stem ++ ".xlsx"
    let tfp := env.save_test_cases_to_excel generated tfname
    let st7 := { st5 with
                 test_cases_df := generated
                 test_cases_filepath := some tfp
                 status_updates :=
                   st5.status_updates ++ [tcSuccessLine generated.length tfp] }
    Event.persistTestCases generated tfname :: Event.yieldSnap st7 ::
      stage3 env url payload stem false st7)

/-- Model of `process_website` (app.py 265-408) as the finite list of
events one run produces.  The `try`/`except` wrapper of lines 297/405
never fires in the model because every collaborator is total (the
source collaborators catch their own exceptions and return failure
values). -/
def process_website {E : Type} (env : Env E) (url : String)
    (num_test_cases : Nat) : List (Event E) :=
  let st0 := initSt E
  if invalidInput url then
    [Event.yieldSnap (addLog st0 invalidUrlLine)]
  else
    let st1 := addLog st0 startedLine
    let st2 := addLog st1 (scrapingLine url)
    let elements_data := env.extract_elements url
    Event.yieldSnap st1 :: Event.yieldSnap st2 :: Event.callExtract url ::
    (if elements_data.isEmpty then
      [Event.yieldSnap (addLog st2 extractFailLine)]
    else
      let stem := urlStem url
      let efname := "elements_" ++ stem ++ ".json"
      let efp := env.save_elements_to_json elements_data efname
      let st3 := { st2 with
                   elements_json_str := env.dumpsIndent4 elements_data
                   elements_filepath := some efp
                   status_updates :=
                     st2.status_updates ++ [extractedLine elements_data.length efp] }
      Event.persistElements elements_data efname :: Event.yieldSnap st3 ::
      (if elements_data.length > 100 then
        let st4 := addLog st3 truncNoteLine
        Event.yieldSnap st4 ::
          stage2 env url (env.dumpsIndent2 (elements_data.take 100)) stem
            num_test_cases st4
      else
        stage2 env url (env.dumpsIndent2 elements_data) stem num_test_cases st3))

/-! ## Observations of a run -/

/-- The snapshots an observer receives: the states carried by the
`yield` events, in order. -/
def snapshotsOf {E : Type} : List (Event E) → List (RunSt E) :=
  List.filterMap (fun e =>
    match e with
    | .yieldSnap s => some s
    | _ => none)

/-- Whether an event is a call to one of the three staged collaborators
(extractor, case synthesizer, script synthesizer). -/
def isCallEvent {E : Type} : Event E → Bool
  | .callExtract _ => true
  | .callCases _ _ _ => true
  | .callScript _ _ _ => true
  | _ => false

/-- The collaborator-call events of a run, in order. -/
def callEventsOf {E : Type} (evs : List (Event E)) : List (Event E) :=
  evs.filter isCallEvent

/-- Whether an event is a call to the script synthesizer. -/
def isScriptCall {E : Type} : Event E → Bool
  | .callScript _ _ _ => true
  | _ => false

/-- The element view sent to the GenAI stages (app.py 318-325): the
JSON dump of the first 100 elements when more were extracted, of the
full sequence otherwise. -/
def aiPayload {E : Type} (env : Env E) (url : String) : String :=
  if (env.extract_elements url).length > 100 then
    env.dumpsIndent2 ((env.extract_elements url).take 100)
  else
    env.dumpsIndent2 (env.extract_elements url)

/-! ## Small-step lemmas for the observations -/

@[simp]
theorem snapshotsOf_nil {E : Type} : snapshotsOf ([] : List (Event E)) = [] := rfl

@[simp]
theorem snapshotsOf_yield_cons {E : Type} (s : RunSt E) (evs : List (Event E)) :
    snapshotsOf (Event.yieldSnap s :: evs) = s :: snapshotsOf evs := rfl

@[simp]
theorem snapshotsOf_callExtract_cons {E : Type} (u : String) (evs : List (Event E)) :
    snapshotsOf (Event.callExtract u :: evs) = snapshotsOf evs := rfl

@[simp]
theorem snapshotsOf_callCases_cons {E : Type} (p u : String) (n : Nat)
    (evs : List (Event E)) :
    snapshotsOf (Event.callCases p u n :: evs) = snapshotsOf evs := rfl

@[simp]
theorem snapshotsOf_callScript_cons {E : Type} (tc : TestCase) (p u : String)
    (evs : List (Event E)) :
    snapshotsOf (Event.callScript tc p u :: evs) = snapshotsOf evs := rfl

@[simp]
theorem snapshotsOf_persistElements_cons {E : Type} (es : List E) (f : String)
    (evs : List (Event E)) :
    snapshotsOf (Event.persistElements es f :: evs) = snapshotsOf evs := rfl

@[simp]
theorem snapshotsOf_persistTestCases_cons {E : Type} (l : List TestCase) (f : String)
    (evs : List (Event E)) :
    snapshotsOf (Event.persistTestCases l f :: evs) = snapshotsOf evs := rfl

@[simp]
theorem snapshotsOf_persistScripts_cons {E : Type} (l : List Script) (f : String)
    (evs : List (Event E)) :
    snapshotsOf (Event.persistScripts l f :: evs) = snapshotsOf evs := rfl

@[simp]
theorem snapshotsOf_append {E : Type} (a b : List (Event E)) :
    snapshotsOf (a ++ b) = snapshotsOf a ++ snapshotsOf b :=
  List.filterMap_append a b _

@[simp]
theorem callEventsOf_nil {E : Type} : callEventsOf ([] : List (Event E)) = [] := rfl

@[simp]
theorem callEventsOf_yield_cons {E : Type} (s : RunSt E) (evs : List (Event E)) :
    callEventsOf (Event.yieldSnap s :: evs) = callEventsOf evs := rfl

@[simp]
theorem callEventsOf_callExtract_cons {E : Type} (u : String) (evs : List (Event E)) :
    callEventsOf (Event.callExtract u :: evs) =
      Event.callExtract u :: callEventsOf evs := rfl

@[simp]
theorem callEventsOf_callCases_cons {E : Type} (p u : String) (n : Nat)
    (evs : List (Event E)) :
    callEventsOf (Event.callCases p u n :: evs) =
      Event.callCases p u n :: callEventsOf evs := rfl

@[simp]
theorem callEventsOf_callScript_cons {E : Type} (tc : TestCase) (p u : String)
    (evs : List (Event E)) :
    callEventsOf (Event.callScript tc p u :: evs) =
      Event.callScript tc p u :: callEventsOf evs := rfl

@[simp]
theorem callEventsOf_persistElements_cons {E : Type} (es : List E) (f : String)
    (evs : List (Event E)) :
    callEventsOf (Event.persistElements es f :: evs) = callEventsOf evs := rfl

@[simp]
theorem callEventsOf_persistTestCases_cons {E : Type} (l : List TestCase) (f : String)
    (evs : List (Event E)) :
    callEventsOf (Event.persistTestCases l f :: evs) = callEventsOf evs := rfl

@[simp]
theorem callEventsOf_persistScripts_cons {E : Type} (l : List Script) (f : String)
    (evs : List (Event E)) :
    callEventsOf (Event.persistScripts l f :: evs) = callEventsOf evs := rfl

@[simp]
theorem callEventsOf_append {E : Type} (a b : List (Event E)) :
    callEventsOf (a ++ b) = callEventsOf a ++ callEventsOf b :=
  List.filter_append _ _

/-! ## Claim C1: invalid URL -/

/-- C1: for every url that is empty or does not start with `http://` or
`https://`, and every requested case count, `process_website` yields
exactly one snapshot; that snapshot's log contains the input-error line
and its elements, test-case and script tables are all empty; the
sequence terminates with no stage executed (no collaborator call
events). -/
theorem claim_C1 {E : Type} (env : Env E) (url : String) (n : Nat)
    (h : invalidInput url = true) :
    snapshotsOf (process_website env url n) = [addLog (initSt E) invalidUrlLine] ∧
    (∀ s ∈ snapshotsOf (process_website env url n),
      invalidUrlLine ∈ s.status_updates ∧ s.elements_json_str = "\x7b\x7d" ∧
      s.test_cases_df = [] ∧ s.scripts_df = []) ∧
    callEventsOf (process_website env url n) = [] := by
  simp only [process_website, h, if_true]
  refine ⟨rfl, ?_, rfl⟩
  intro s hs
  simp only [snapshotsOf_yield_cons, snapshotsOf_nil, List.mem_singleton] at hs
  subst hs
  simp [addLog, initSt]

/-- Environment used by concrete witnesses: two extracted elements, a
single genuine generated test case, fixed collaborator outputs. -/
def envW : Env Unit :=
  { extract_elements := fun _ => [(), ()]
    dumpsIndent4 := fun es => "J4:" ++ toString es.length
    dumpsIndent2 := fun es => "J2:" ++ toString es.length
    genTestCases := fun _ _ _ =>
      [{ id := .str "TC001", scenario := .str "nav", steps := .str "1. go",
         expected := .str "ok" }]
    genScript := fun _ _ _ => "print(1)"
    save_elements_to_json := fun _ fn => "outputs/" ++ fn
    save_test_cases_to_excel := fun _ fn => "outputs/" ++ fn
    save_scripts_to_excel := fun _ fn => "outputs/" ++ fn }

/-- Witness for C1 at the concrete invalid input `ftp://example.com`. -/
theorem claim_C1_witness :
    invalidInput "ftp://example.com" = true ∧
    (snapshotsOf (process_website envW "ftp://example.com" 3) =
        [addLog (initSt Unit) invalidUrlLine] ∧
      (∀ s ∈ snapshotsOf (process_website envW "ftp://example.com" 3),
        invalidUrlLine ∈ s.status_updates ∧ s.elements_json_str = "\x7b\x7d" ∧
        s.test_cases_df = [] ∧ s.scripts_df = []) ∧
      callEventsOf (process_website envW "ftp://example.com" 3) = []) :=
  ⟨by decide, claim_C1 envW "ftp://example.com" 3 (by decide)⟩

/-! ## Claim C7: the response validator -/

/-- Acceptance condition stated from the spec's words (for comparison
with the source validator): the text parses as a JSON list of objects,
the list is non-empty, and its first object contains all four required
keys. -/
def acceptsSpec (loads : String → Option Jv) (content : String) : Bool :=
  match loads content with
  | some (.arr items) =>
      items.all Jv.isObj && (!items.isEmpty &&
        requiredKeys.all (fun k => objHasKey k (items.headD .null)))
  | _ => false

/-- The validator returns a non-empty record list exactly when the
spec's acceptance condition holds. -/
theorem parse_nonempty_iff_accepts (loads : String → Option Jv) (c : String) :
    parse_ai_test_cases loads c ≠ [] ↔ acceptsSpec loads c = true := by
  unfold parse_ai_test_cases acceptsSpec
  cases h : loads c with
  | none => simp
  | some v =>
    cases v with
    | arr items =>
        cases hobj : items.all Jv.isObj with
        | false => simp [hobj]
        | true =>
            cases hne : items.isEmpty with
            | true =>
                have : items = [] := by
                  cases items with
                  | nil => rfl
                  | cons a as => simp [List.isEmpty] at hne
                subst this
                simp
            | false =>
                have hn : items ≠ [] := by
                  cases items with
                  | nil => simp [List.isEmpty] at hne
                  | cons a as => simp
                cases hk : requiredKeys.all (fun k => objHasKey k (items.headD .null)) with
                | false =>
                    simp [hobj, hne, hk]
                    exact fun _ => hn
                | true => simp [hobj, hne, hk, hn]
    | null => simp
    | nan => simp
    | bool b => simp
    | num s => simp
    | str s => simp
    | obj kvs => simp

/-- C7: for every raw generator output, the validator (as used by
`generate_test_cases` on the stripped response content) accepts and
returns its records exactly when the content parses as a non-empty
JSON list of objects whose first object has the four required keys;
on every other input `generate_test_cases` produces the single-row
`PARSE_ERROR` table whose steps field carries the offending content
verbatim. -/
theorem claim_C7 (loads : String → Option Jv) (raw : String) :
    (parse_ai_test_cases loads (pyStrip raw) ≠ [] ↔
      acceptsSpec loads (pyStrip raw) = true) ∧
    generate_test_cases true loads (.ok raw) =
      (if acceptsSpec loads (pyStrip raw) then
        toTestCases (parse_ai_test_cases loads (pyStrip raw))
      else
        [{ id := .str "PARSE_ERROR", scenario := .str "Failed to parse AI response",
           steps := .str (pyStrip raw), expected := .str "N/A" }]) := by
  refine ⟨parse_nonempty_iff_accepts loads (pyStrip raw), ?_⟩
  unfold generate_test_cases
  simp only [Bool.not_true, Bool.false_eq_true, if_false]
  cases hA : acceptsSpec loads (pyStrip raw) with
  | true =>
      have hne : parse_ai_test_cases loads (pyStrip raw) ≠ [] :=
        (parse_nonempty_iff_accepts loads (pyStrip raw)).mpr hA
      have : (parse_ai_test_cases loads (pyStrip raw)).isEmpty = false := by
        cases hp : parse_ai_test_cases loads (pyStrip raw) with
        | nil => exact absurd hp hne
        | cons a as => simp [List.isEmpty]
      simp [this]
  | false =>
      have hp : parse_ai_test_cases loads (pyStrip raw) = [] := by
        by_contra hne
        have ht : acceptsSpec loads (pyStrip raw) = true :=
          (parse_nonempty_iff_accepts loads (pyStrip raw)).mp hne
        simp [ht] at hA
      simp [hp]

/-! ## Claim C10: uninitialised GenAI client -/

/-- Whether an event is a persist of the test-case table. -/
def isTCPersist {E : Type} : Event E → Bool
  | .persistTestCases _ _ => true
  | _ => false

/-- C10: when the client failed to initialise, `generate_test_cases`
returns the completely empty table for every input (not a single-row
error-marker table), `generate_selenium_script` returns the fixed
error string, and the orchestrator treats the empty table as a
critical stage-2 failure: the test-case table is never persisted, the
test-case path stays unset in every snapshot, the run's last log line
is the stopping line, and stage 3 never runs (no script-synthesizer
call, and the script table and path stay empty in every snapshot). -/
theorem claim_C10 {E : Type} (env : Env E) (loads : String → Option Jv)
    (apiOf : String → String → Nat → ApiOutcome) (api2 : ApiOutcome)
    (url : String) (n : Nat)
    (hv : invalidInput url = false)
    (hx : env.extract_elements url ≠ [])
    (hg : env.genTestCases =
      fun p u k => generate_test_cases false loads (apiOf p u k)) :
    generate_selenium_script false api2 = "Error: GenAI client not initialized." ∧
    (∀ p u k, env.genTestCases p u k = []) ∧
    (∀ e ∈ process_website env url n, isTCPersist e = false) ∧
    (∀ s ∈ snapshotsOf (process_website env url n), s.test_cases_filepath = none) ∧
    (∀ e ∈ process_website env url n, isScriptCall e = false) ∧
    (∃ s, (snapshotsOf (process_website env url n)).getLast? = some s ∧
      s.status_updates.getLast? = some stopLine) ∧
    (∀ s ∈ snapshotsOf (process_website env url n),
      s.scripts_df = [] ∧ s.scripts_filepath = none) := by
  have hgen : ∀ p u k, env.genTestCases p u k = [] := by
    intro p u k
    rw [hg]
    rfl
  refine ⟨by cases api2 <;> rfl, hgen, ?_⟩
  cases hE : env.extract_elements url with
  | nil => exact absurd hE hx
  | cons a as =>
      simp only [process_website, hv, Bool.false_eq_true, if_false, hE,
        List.isEmpty_cons, stage2, hgen, generationFailed, List.isEmpty_nil,
        Bool.true_or, if_true, Bool.not_true, stage2crit, addLog, initSt]
      by_cases h100 : (a :: as).length > 100
      · rw [if_pos h100]
        refine ⟨?_, ?_, ?_, ⟨_, rfl, rfl⟩, ?_⟩ <;>
          simp [isTCPersist, isScriptCall, snapshotsOf]
      · rw [if_neg h100]
        refine ⟨?_, ?_, ?_, ⟨_, rfl, rfl⟩, ?_⟩ <;>
          simp [isTCPersist, isScriptCall, snapshotsOf]

/-- A `json.loads` that always fails (for concrete instantiations). -/
def loadsNone : String → Option Jv := fun _ => none

/-- A fixed API outcome per call (for concrete instantiations). -/
def apiOfW : String → String → Nat → ApiOutcome := fun _ _ _ => .ok "x"

/-- Witness environment whose case synthesizer is the client-less
`generate_test_cases`. -/
def envC10 : Env Unit :=
  { extract_elements := fun _ => [(), ()]
    dumpsIndent4 := fun _ => "J4"
    dumpsIndent2 := fun _ => "J2"
    genTestCases := fun p u k => generate_test_cases false loadsNone (apiOfW p u k)
    genScript := fun _ _ _ => "print(1)"
    save_elements_to_json := fun _ fn => "outputs/" ++ fn
    save_test_cases_to_excel := fun _ fn => "outputs/" ++ fn
    save_scripts_to_excel := fun _ fn => "outputs/" ++ fn }

/-- Witness for C10 at a concrete valid URL with the client-less case
synthesizer: the run ends on the stopping line and no script call is
made. -/
theorem claim_C10_witness :
    invalidInput "https://a.com" = false ∧
    envC10.extract_elements "https://a.com" ≠ [] ∧
    (∃ s, (snapshotsOf (process_website envC10 "https://a.com" 2)).getLast? = some s ∧
      s.status_updates.getLast? = some stopLine) ∧
    (∀ e ∈ process_website envC10 "https://a.com" 2, isScriptCall e = false) :=
  ⟨by decide, by decide,
    (claim_C10 envC10 loadsNone apiOfW (.ok "y") "https://a.com" 2 (by decide)
      (by decide) rfl).2.2.2.2.2.1,
    (claim_C10 envC10 loadsNone apiOfW (.ok "y") "https://a.com" 2 (by decide)
      (by decide) rfl).2.2.2.2.1⟩

/-! ## Distinctness of log lines

The log lines built from run-dependent data (url, counts, paths) are
still distinguishable from the fixed marker lines by a character inside
their fixed prefix. -/

/-- Two strings differing at some character position are different. -/
theorem str_ne_of_nth {s t : String} (i : Nat)
    (h : s.data[i]? ≠ t.data[i]?) : s ≠ t := fun he => h (by rw [he])

theorem warn_ne_started : warnLine ≠ startedLine := by decide

theorem warn_ne_trunc : warnLine ≠ truncNoteLine := by decide

theorem warn_ne_scraping (url : String) : warnLine ≠ scrapingLine url := by
  apply str_ne_of_nth 0
  simp [scrapingLine, warnLine, String.data_append]

theorem warn_ne_extracted (cnt : Nat) (fp : String) :
    warnLine ≠ extractedLine cnt fp := by
  apply str_ne_of_nth 3
  simp [extractedLine, warnLine, String.data_append, List.getElem?_append]

theorem warn_ne_stage2 (n : Nat) : warnLine ≠ stage2Line n := by
  apply str_ne_of_nth 0
  simp [stage2Line, warnLine, String.data_append]

/-! ## Claim C2: critical stage-2 failure -/

/-- A `PARSE_ERROR` id is one of the reserved error-marker ids. -/
theorem isReservedId_of_isParseError {v : Jv} (h : isParseError v = true) :
    isReservedId v = true := by
  cases v <;> simp_all [isParseError, isReservedId]

/-- C2: when the case synthesizer returns an empty table or one with a
`PARSE_ERROR` row, the run never calls the script synthesizer, the
script table is empty in every snapshot, the final snapshot's last log
line is the stopping line, and after the snapshot in which the failure
first becomes visible (the one whose log ends with the warning line,
no earlier snapshot containing it) at most two further snapshots are
emitted. -/
theorem claim_C2 {E : Type} (env : Env E) (url : String) (n : Nat)
    (hv : invalidInput url = false)
    (hx : env.extract_elements url ≠ [])
    (hbad : env.genTestCases (aiPayload env url) url n = [] ∨
      (env.genTestCases (aiPayload env url) url n).any
        (fun r => isParseError r.id) = true) :
    (∀ e ∈ process_website env url n, isScriptCall e = false) ∧
    (∀ s ∈ snapshotsOf (process_website env url n), s.scripts_df = []) ∧
    (∃ s, (snapshotsOf (process_website env url n)).getLast? = some s ∧
      s.status_updates.getLast? = some stopLine) ∧
    (∃ pre sW tail, snapshotsOf (process_website env url n) = pre ++ sW :: tail ∧
      sW.status_updates.getLast? = some warnLine ∧
      (∀ s ∈ pre, warnLine ∉ s.status_updates) ∧
      tail.length ≤ 2) := by
  cases hE : env.extract_elements url with
  | nil => exact absurd hE hx
  | cons a as =>
      rw [aiPayload, hE] at hbad
      by_cases h100 : (a :: as).length > 100
      · rw [if_pos h100] at hbad
        simp only [process_website, hv, Bool.false_eq_true, if_false, hE,
          List.isEmpty_cons, stage2, stage2crit, addLog, initSt]
        rw [if_pos h100]
        cases hg : env.genTestCases (env.dumpsIndent2 (List.take 100 (a :: as))) url n with
        | nil =>
            simp only [hg, generationFailed, List.isEmpty_nil, Bool.true_or,
              if_true, Bool.not_true, List.any_nil, Bool.or_false]
            refine ⟨by simp [isScriptCall], by simp [snapshotsOf], ⟨_, rfl, rfl⟩,
              [_, _, _, _, _], _, [_], rfl, rfl, ?_, by simp⟩
            simp [warn_ne_started, warn_ne_scraping, warn_ne_extracted,
              warn_ne_stage2, warn_ne_trunc]
        | cons t ts =>
            have hpe : (t :: ts).any (fun r => isParseError r.id) = true := by
              rw [hg] at hbad
              cases hbad with
              | inl h => exact absurd h (by simp)
              | inr h => exact h
            have hres : (t :: ts).any (fun r => isReservedId r.id) = true := by
              rw [List.any_eq_true] at hpe ⊢
              obtain ⟨x, hx1, hx2⟩ := hpe
              exact ⟨x, hx1, isReservedId_of_isParseError hx2⟩
            simp only [hg, generationFailed, List.isEmpty_cons, Bool.false_or,
              hres, if_true, Bool.not_false, hpe, Bool.or_true]
            refine ⟨by simp [isScriptCall], by simp [snapshotsOf], ⟨_, rfl, rfl⟩,
              [_, _, _, _, _], _, [_], rfl, rfl, ?_, by simp⟩
            simp [warn_ne_started, warn_ne_scraping, warn_ne_extracted,
              warn_ne_stage2, warn_ne_trunc]
      · rw [if_neg h100] at hbad
        simp only [process_website, hv, Bool.false_eq_true, if_false, hE,
          List.isEmpty_cons, stage2, stage2crit, addLog, initSt]
        rw [if_neg h100]
        cases hg : env.genTestCases (env.dumpsIndent2 (a :: as)) url n with
        | nil =>
            simp only [hg, generationFailed, List.isEmpty_nil, Bool.true_or,
              if_true, Bool.not_true, List.any_nil, Bool.or_false]
            refine ⟨by simp [isScriptCall], by simp [snapshotsOf], ⟨_, rfl, rfl⟩,
              [_, _, _, _], _, [_], rfl, rfl, ?_, by simp⟩
            simp [warn_ne_started, warn_ne_scraping, warn_ne_extracted,
              warn_ne_stage2]
        | cons t ts =>
            have hpe : (t :: ts).any (fun r => isParseError r.id) = true := by
              rw [hg] at hbad
              cases hbad with
              | inl h => exact absurd h (by simp)
              | inr h => exact h
            have hres : (t :: ts).any (fun r => isReservedId r.id) = true := by
              rw [List.any_eq_true] at hpe ⊢
              obtain ⟨x, hx1, hx2⟩ := hpe
              exact ⟨x, hx1, isReservedId_of_isParseError hx2⟩
            simp only [hg, generationFailed, List.isEmpty_cons, Bool.false_or,
              hres, if_true, Bool.not_false, hpe, Bool.or_true]
            refine ⟨by simp [isScriptCall], by simp [snapshotsOf], ⟨_, rfl, rfl⟩,
              [_, _, _, _], _, [_], rfl, rfl, ?_, by simp⟩
            simp [warn_ne_started, warn_ne_scraping, warn_ne_extracted,
              warn_ne_stage2]

/-- Witness environment whose case synthesizer returns a single-row
`PARSE_ERROR` table. -/
def envC2 : Env Unit :=
  { envW with
    genTestCases := fun _ _ _ =>
      [{ id := .str "PARSE_ERROR", scenario := .str "Failed to parse AI response",
         steps := .str "oops", expected := .str "N/A" }] }

/-- Witness for C2 at a concrete run whose case synthesizer returns a
`PARSE_ERROR` row. -/
theorem claim_C2_witness :
    invalidInput "https://a.com" = false ∧
    envC2.extract_elements "https://a.com" ≠ [] ∧
    (envC2.genTestCases (aiPayload envC2 "https://a.com") "https://a.com" 2).any
      (fun r => isParseError r.id) = true ∧
    (∀ e ∈ process_website envC2 "https://a.com" 2, isScriptCall e = false) ∧
    (∃ s, (snapshotsOf (process_website envC2 "https://a.com" 2)).getLast? = some s ∧
      s.status_updates.getLast? = some stopLine) :=
  ⟨by decide, by decide, by decide,
    (claim_C2 envC2 "https://a.com" 2 (by decide) (by decide) (Or.inr (by decide))).1,
    (claim_C2 envC2 "https://a.com" 2 (by decide) (by decide)
      (Or.inr (by decide))).2.2.1⟩

/-! ## Claim C3: soft stage-2 failure

The claim as frozen quantifies over every run whose table has no
`PARSE_ERROR` row and whose error rows are all `API_ERROR`/`ERROR`.  A
table mixing one genuine row with one `API_ERROR` row satisfies that
hypothesis, yet the orchestrator then finds one valid case and
generates a script for it instead of logging the skipping line —
`claim_C3_counterexample` exhibits this.  The claim holds once the
table consists entirely of such error rows (`claim_C3`). -/

/-- Counterexample environment: the case synthesizer returns a mixed
table, one genuine row followed by one `API_ERROR` row. -/
def envC3x : Env Unit :=
  { envW with
    genTestCases := fun _ _ _ =>
      [{ id := .str "TC001", scenario := .str "nav", steps := .str "1. go",
         expected := .str "ok" },
       { id := .str "API_ERROR", scenario := .str "Rate Limit Reached",
         steps := .str "429", expected := .str "N/A" }] }

/-- C3 fails as stated: this concrete run's table is non-empty, has an
error row, no `PARSE_ERROR` row, and its error rows are all
`API_ERROR`; yet the run's final script table has one row and the
skipping line is never logged (the final log holds every logged line,
the log being append-only). -/
theorem claim_C3_counterexample :
    invalidInput "https://a.com" = false ∧
    (envC3x.genTestCases (aiPayload envC3x "https://a.com") "https://a.com" 2).isEmpty
      = false ∧
    (envC3x.genTestCases (aiPayload envC3x "https://a.com") "https://a.com" 2).any
      (fun r => isReservedId r.id) = true ∧
    (envC3x.genTestCases (aiPayload envC3x "https://a.com") "https://a.com" 2).any
      (fun r => isParseError r.id) = false ∧
    (∃ s, (snapshotsOf (process_website envC3x "https://a.com" 2)).getLast? = some s ∧
      s.scripts_df.length = 1 ∧ skippingLine ∉ s.status_updates) := by
  refine ⟨by decide, by decide, by decide, by decide, ?_⟩
  refine ⟨_, rfl, by decide, by decide⟩

/-- C3 (amended: the returned table consists entirely of
`API_ERROR`/`ERROR` rows): the run is not terminated at stage 2 — it
reaches stage 3 (a snapshot's log ends with the stage-3 banner), finds
zero valid cases, logs the skipping line with a snapshot, never calls
the script synthesizer, keeps the script table empty in every
snapshot, and completes normally: the final snapshot's last log line
is the completion line. -/
theorem claim_C3 {E : Type} (env : Env E) (url : String) (n : Nat)
    (hv : invalidInput url = false)
    (hx : env.extract_elements url ≠ [])
    (htbl : (env.genTestCases (aiPayload env url) url n).isEmpty = false)
    (hall : (env.genTestCases (aiPayload env url) url n).all
      (fun r => isReservedId r.id) = true)
    (hnope : (env.genTestCases (aiPayload env url) url n).any
      (fun r => isParseError r.id) = false) :
    (env.genTestCases (aiPayload env url) url n).filter
      (fun r => !isReservedId r.id) = [] ∧
    (∃ s ∈ snapshotsOf (process_website env url n),
      s.status_updates.getLast? = some stage3Line) ∧
    (∃ s ∈ snapshotsOf (process_website env url n),
      s.status_updates.getLast? = some skippingLine) ∧
    (∀ e ∈ process_website env url n, isScriptCall e = false) ∧
    (∀ s ∈ snapshotsOf (process_website env url n), s.scripts_df = []) ∧
    (∃ s, (snapshotsOf (process_website env url n)).getLast? = some s ∧
      s.status_updates.getLast? = some finishedLine) := by
  have hfil : (env.genTestCases (aiPayload env url) url n).filter
      (fun r => !isReservedId r.id) = [] := by
    rw [List.filter_eq_nil_iff]
    intro r hr
    have := (List.all_eq_true.mp hall) r hr
    simp [this]
  refine ⟨hfil, ?_⟩
  cases hE : env.extract_elements url with
  | nil => exact absurd hE hx
  | cons a as =>
      rw [aiPayload, hE] at htbl hall hnope hfil
      by_cases h100 : (a :: as).length > 100
      · rw [if_pos h100] at htbl hall hnope hfil
        simp only [process_website, hv, Bool.false_eq_true, if_false, hE,
          List.isEmpty_cons, stage2, stage2crit, addLog, initSt]
        rw [if_pos h100]
        cases hg : env.genTestCases (env.dumpsIndent2 (List.take 100 (a :: as))) url n with
        | nil => rw [hg] at htbl; exact absurd htbl (by simp)
        | cons t ts =>
            rw [hg] at htbl hall hnope hfil
            have hres : (t :: ts).any (fun r => isReservedId r.id) = true := by
              rw [List.any_eq_true]
              exact ⟨t, by simp, (List.all_eq_true.mp hall) t (by simp)⟩
            simp only [generationFailed, List.isEmpty_cons, Bool.false_or, hres,
              if_true, Bool.not_false, hnope, Bool.or_false, stage3, hfil,
              List.isEmpty_nil, Bool.not_true, Bool.and_false, if_false, addLog,
              completion]
            refine ⟨?_, ?_, by simp [isScriptCall], by simp [snapshotsOf],
              ⟨_, rfl, rfl⟩⟩
            · simp [List.getLast?_cons_cons]
            · simp [List.getLast?_cons_cons]
      · rw [if_neg h100] at htbl hall hnope hfil
        simp only [process_website, hv, Bool.false_eq_true, if_false, hE,
          List.isEmpty_cons, stage2, stage2crit, addLog, initSt]
        rw [if_neg h100]
        cases hg : env.genTestCases (env.dumpsIndent2 (a :: as)) url n with
        | nil => rw [hg] at htbl; exact absurd htbl (by simp)
        | cons t ts =>
            rw [hg] at htbl hall hnope hfil
            have hres : (t :: ts).any (fun r => isReservedId r.id) = true := by
              rw [List.any_eq_true]
              exact ⟨t, by simp, (List.all_eq_true.mp hall) t (by simp)⟩
            simp only [generationFailed, List.isEmpty_cons, Bool.false_or, hres,
              if_true, Bool.not_false, hnope, Bool.or_false, stage3, hfil,
              List.isEmpty_nil, Bool.not_true, Bool.and_false, if_false, addLog,
              completion]
            refine ⟨?_, ?_, by simp [isScriptCall], by simp [snapshotsOf],
              ⟨_, rfl, rfl⟩⟩
            · simp [List.getLast?_cons_cons]
            · simp [List.getLast?_cons_cons]

/-- Witness environment: the case synthesizer returns a single-row
`API_ERROR` table. -/
def envC3 : Env Unit :=
  { envW with
    genTestCases := fun _ _ _ =>
      [{ id := .str "API_ERROR", scenario := .str "Rate Limit Reached",
         steps := .str "429", expected := .str "N/A" }] }

/-- Witness for the amended C3 at a concrete run whose table is one
`API_ERROR` row. -/
theorem claim_C3_witness :
    invalidInput "https://a.com" = false ∧
    envC3.extract_elements "https://a.com" ≠ [] ∧
    (envC3.genTestCases (aiPayload envC3 "https://a.com") "https://a.com" 2).isEmpty
      = false ∧
    (envC3.genTestCases (aiPayload envC3 "https://a.com") "https://a.com" 2).all
      (fun r => isReservedId r.id) = true ∧
    (envC3.genTestCases (aiPayload envC3 "https://a.com") "https://a.com" 2).any
      (fun r => isParseError r.id) = false ∧
    ((∃ s ∈ snapshotsOf (process_website envC3 "https://a.com" 2),
      s.status_updates.getLast? = some skippingLine) ∧
     (∃ s, (snapshotsOf (process_website envC3 "https://a.com" 2)).getLast? = some s ∧
      s.status_updates.getLast? = some finishedLine)) :=
  ⟨by decide, by decide, by decide, by decide, by decide,
    (claim_C3 envC3 "https://a.com" 2 (by decide) (by decide) (by decide) (by decide)
      (by decide)).2.2.1,
    (claim_C3 envC3 "https://a.com" 2 (by decide) (by decide) (by decide) (by decide)
      (by decide)).2.2.2.2.2⟩

/-! ## The script loop, characterised -/

/-- The accumulated `scripts_data` of the per-case loop: one `Script`
per processed case, in table order. -/
theorem scriptLoop_scriptsEq {E : Type} (g : TestCase → String → String → String)
    (p u : String) :
    ∀ (l : List TestCase) (st : RunSt E),
      (scriptLoop g p u l st).2.1 =
        l.map (fun tc => { test_case_id := tc.id, code := g tc p u })
  | [], _ => rfl
  | tc :: rest, st => by
      simp [scriptLoop, scriptLoop_scriptsEq g p u rest (addLog st (perCaseLine tc))]

/-- The state after the per-case loop: only the log advanced, by the
per-case lines in table order. -/
theorem scriptLoop_stateEq {E : Type} (g : TestCase → String → String → String)
    (p u : String) :
    ∀ (l : List TestCase) (st : RunSt E),
      (scriptLoop g p u l st).2.2 =
        { st with status_updates := st.status_updates ++ l.map perCaseLine }
  | [], st => by simp [scriptLoop]
  | tc :: rest, st => by
      rw [scriptLoop, scriptLoop_stateEq g p u rest (addLog st (perCaseLine tc))]
      simp [addLog]

/-- A list ending in a known element has it as its `getLast?`. -/
theorem getLast?_of_concat {α : Type} {l l' : List α} {x : α}
    (h : l = l' ++ [x]) : l.getLast? = some x := by
  subst h
  exact List.getLast?_concat _

/-- A list ending in a known two-element suffix. -/
theorem getLast?_append_pair {α : Type} (S : List α) (x y : α) :
    (S ++ [x, y]).getLast? = some y := by
  exact getLast?_of_concat (show S ++ [x, y] = (S ++ [x]) ++ [y] by simp)

/-- `getLast?` skips over a head element when the tail is non-empty. -/
theorem getLast?_cons_tail {α : Type} (a : α) {l : List α} {x : α}
    (h : l.getLast? = some x) : (a :: l).getLast? = some x := by
  cases l with
  | nil => simp at h
  | cons b bs => rw [List.getLast?_cons_cons]; exact h

/-- `getLast?` skips over a prefix list when the suffix ends in a
known element. -/
theorem getLast?_append_right {α : Type} (l' : List α) {l : List α} {x : α}
    (h : l.getLast? = some x) : (l' ++ l).getLast? = some x := by
  induction l' with
  | nil => simpa using h
  | cons b bs ih => rw [List.cons_append]; exact getLast?_cons_tail b ih

/-! ## Claim C5: successful three-stage runs

The claim as frozen bounds the final test-case table length by the
requested count; the orchestrator never enforces that bound (the code
accepts however many rows the synthesizer returns), so a synthesizer
over-shoot falsifies the claim — `claim_C5_counterexample`.  The other
parts hold and are proved in `claim_C5`, with the upper bound holding
whenever the synthesizer returns at most the requested count. -/

/-- Counterexample environment: the case synthesizer over-shoots,
returning two genuine rows. -/
def envC5x : Env Unit :=
  { envW with
    genTestCases := fun _ _ _ =>
      [{ id := .str "TC001", scenario := .str "nav", steps := .str "1. go",
         expected := .str "ok" },
       { id := .str "TC002", scenario := .str "form", steps := .str "1. type",
         expected := .str "ok" }] }

/-- C5 fails as stated: a run requested one test case, the synthesizer
returned two genuine rows, all three stages completed successfully
(final log line is the completion line), yet the final snapshot's
test-case table has two rows — more than the requested count. -/
theorem claim_C5_counterexample :
    invalidInput "https://a.com" = false ∧
    envC5x.extract_elements "https://a.com" ≠ [] ∧
    (envC5x.genTestCases (aiPayload envC5x "https://a.com") "https://a.com" 1).all
      (fun r => !isReservedId r.id) = true ∧
    (∃ s, (snapshotsOf (process_website envC5x "https://a.com" 1)).getLast? = some s ∧
      s.status_updates.getLast? = some finishedLine ∧
      s.test_cases_df.length = 2 ∧ ¬(s.test_cases_df.length ≤ 1)) := by
  refine ⟨by decide, by decide, by decide, ⟨_, rfl, by decide, by decide, by decide⟩⟩

/-- C5 (amended: the upper bound is conditional on the synthesizer
returning at most the requested count): on a successful three-stage run
(non-empty extraction, non-empty table, no error-marker rows) the final
snapshot's test-case table is the returned table, its length is at
least 1, at most the requested count whenever the synthesizer returned
at most that many rows, and the script table length equals the number
of non-error-marker test-case rows. -/
theorem claim_C5 {E : Type} (env : Env E) (url : String) (n : Nat)
    (hv : invalidInput url = false)
    (hx : env.extract_elements url ≠ [])
    (htbl : (env.genTestCases (aiPayload env url) url n).isEmpty = false)
    (hok : (env.genTestCases (aiPayload env url) url n).all
      (fun r => !isReservedId r.id) = true) :
    ∃ s, (snapshotsOf (process_website env url n)).getLast? = some s ∧
      s.status_updates.getLast? = some finishedLine ∧
      s.test_cases_df = env.genTestCases (aiPayload env url) url n ∧
      1 ≤ s.test_cases_df.length ∧
      ((env.genTestCases (aiPayload env url) url n).length ≤ n →
        s.test_cases_df.length ≤ n) ∧
      s.scripts_df.length =
        (s.test_cases_df.filter (fun r => !isReservedId r.id)).length := by
  cases hE : env.extract_elements url with
  | nil => exact absurd hE hx
  | cons a as =>
      rw [aiPayload, hE] at htbl hok ⊢
      by_cases h100 : (a :: as).length > 100
      · rw [if_pos h100] at htbl hok ⊢
        simp only [process_website, hv, Bool.false_eq_true, if_false, hE,
          List.isEmpty_cons, stage2, addLog, initSt]
        rw [if_pos h100]
        cases hg : env.genTestCases (env.dumpsIndent2 (List.take 100 (a :: as))) url n with
        | nil => rw [hg] at htbl; exact absurd htbl (by simp)
        | cons t ts =>
            rw [hg] at htbl hok
            have hanyres : ((t :: ts).any fun r => isReservedId r.id) = false := by
              rw [List.any_eq_false]
              intro r hr
              have := (List.all_eq_true.mp hok) r hr
              simp_all
            have hfil : List.filter (fun r => !isReservedId r.id) (t :: ts) = t :: ts :=
              List.filter_eq_self.mpr (List.all_eq_true.mp hok)
            simp only [generationFailed, List.isEmpty_cons, Bool.false_or, hanyres,
              Bool.false_eq_true, if_false, stage3, hfil, addLog, completion,
              scriptLoop_scriptsEq, scriptLoop_stateEq, Bool.not_false,
              Bool.false_and, Bool.and_false, List.isEmpty_nil, Bool.not_true,
              if_true]
            apply Exists.intro
            constructor
            · simp only [snapshotsOf_yield_cons, snapshotsOf_callExtract_cons,
                snapshotsOf_callCases_cons, snapshotsOf_callScript_cons,
                snapshotsOf_persistElements_cons, snapshotsOf_persistTestCases_cons,
                snapshotsOf_persistScripts_cons, snapshotsOf_append, snapshotsOf_nil]
              first
                | (apply getLast?_cons_tail; apply getLast?_cons_tail;
                   apply getLast?_cons_tail; apply getLast?_cons_tail;
                   apply getLast?_cons_tail; apply getLast?_cons_tail;
                   apply getLast?_cons_tail; apply getLast?_cons_tail;
                   exact getLast?_append_pair _ _ _)
                | (apply getLast?_cons_tail; apply getLast?_cons_tail;
                   apply getLast?_cons_tail; apply getLast?_cons_tail;
                   apply getLast?_cons_tail; apply getLast?_cons_tail;
                   apply getLast?_cons_tail;
                   exact getLast?_append_pair _ _ _)
            refine ⟨List.getLast?_concat _, rfl, by simp, fun h => by simpa using h,
              by simp [hfil]⟩
      · rw [if_neg h100] at htbl hok ⊢
        simp only [process_website, hv, Bool.false_eq_true, if_false, hE,
          List.isEmpty_cons, stage2, addLog, initSt]
        rw [if_neg h100]
        cases hg : env.genTestCases (env.dumpsIndent2 (a :: as)) url n with
        | nil => rw [hg] at htbl; exact absurd htbl (by simp)
        | cons t ts =>
            rw [hg] at htbl hok
            have hanyres : ((t :: ts).any fun r => isReservedId r.id) = false := by
              rw [List.any_eq_false]
              intro r hr
              have := (List.all_eq_true.mp hok) r hr
              simp_all
            have hfil : List.filter (fun r => !isReservedId r.id) (t :: ts) = t :: ts :=
              List.filter_eq_self.mpr (List.all_eq_true.mp hok)
            simp only [generationFailed, List.isEmpty_cons, Bool.false_or, hanyres,
              Bool.false_eq_true, if_false, stage3, hfil, addLog, completion,
              scriptLoop_scriptsEq, scriptLoop_stateEq, Bool.not_false,
              Bool.false_and, Bool.and_false, List.isEmpty_nil, Bool.not_true,
              if_true]
            apply Exists.intro
            constructor
            · simp only [snapshotsOf_yield_cons, snapshotsOf_callExtract_cons,
                snapshotsOf_callCases_cons, snapshotsOf_callScript_cons,
                snapshotsOf_persistElements_cons, snapshotsOf_persistTestCases_cons,
                snapshotsOf_persistScripts_cons, snapshotsOf_append, snapshotsOf_nil]
              first
                | (apply getLast?_cons_tail; apply getLast?_cons_tail;
                   apply getLast?_cons_tail; apply getLast?_cons_tail;
                   apply getLast?_cons_tail; apply getLast?_cons_tail;
                   apply getLast?_cons_tail; apply getLast?_cons_tail;
                   exact getLast?_append_pair _ _ _)
                | (apply getLast?_cons_tail; apply getLast?_cons_tail;
                   apply getLast?_cons_tail; apply getLast?_cons_tail;
                   apply getLast?_cons_tail; apply getLast?_cons_tail;
                   apply getLast?_cons_tail;
                   exact getLast?_append_pair _ _ _)
            refine ⟨List.getLast?_concat _, rfl, by simp, fun h => by simpa using h,
              by simp [hfil]⟩

/-- Witness for the amended C5 at a concrete successful run: two
elements, one genuine test case, one generated script. -/
theorem claim_C5_witness :
    invalidInput "https://a.com" = false ∧
    envW.extract_elements "https://a.com" ≠ [] ∧
    (envW.genTestCases (aiPayload envW "https://a.com") "https://a.com" 3).isEmpty
      = false ∧
    (envW.genTestCases (aiPayload envW "https://a.com") "https://a.com" 3).all
      (fun r => !isReservedId r.id) = true ∧
    (∃ s, (snapshotsOf (process_website envW "https://a.com" 3)).getLast? = some s ∧
      s.status_updates.getLast? = some finishedLine ∧
      s.test_cases_df = envW.genTestCases (aiPayload envW "https://a.com")
        "https://a.com" 3 ∧
      1 ≤ s.test_cases_df.length ∧
      ((envW.genTestCases (aiPayload envW "https://a.com") "https://a.com" 3).length
          ≤ 3 → s.test_cases_df.length ≤ 3) ∧
      s.scripts_df.length =
        (s.test_cases_df.filter (fun r => !isReservedId r.id)).length) :=
  ⟨by decide, by decide, by decide, by decide,
    claim_C5 envW "https://a.com" 3 (by decide) (by decide) (by decide) (by decide)⟩

/-! ## Further observations of a run -/

/-- The payloads of the case-synthesizer calls of a run. -/
def casesPayloadsOf {E : Type} (evs : List (Event E)) : List String :=
  evs.filterMap (fun e =>
    match e with
    | .callCases p _ _ => some p
    | _ => none)

/-- The payloads of the script-synthesizer calls of a run. -/
def scriptPayloadsOf {E : Type} (evs : List (Event E)) : List String :=
  evs.filterMap (fun e =>
    match e with
    | .callScript _ p _ => some p
    | _ => none)

/-- The test cases passed to the script-synthesizer calls of a run, in
call order. -/
def scriptTCsOf {E : Type} (evs : List (Event E)) : List TestCase :=
  evs.filterMap (fun e =>
    match e with
    | .callScript tc _ _ => some tc
    | _ => none)

/-- The element lists passed to the elements exporter of a run. -/
def persistElemsOf {E : Type} (evs : List (Event E)) : List (List E) :=
  evs.filterMap (fun e =>
    match e with
    | .persistElements es _ => some es
    | _ => none)

/-! ## The states yielded inside the script loop -/

/-- The successive states yielded by the per-case loop started in state
`st`: one per case, each appending that case's progress line. -/
def loopStates {E : Type} (st : RunSt E) : List TestCase → List (RunSt E)
  | [] => []
  | tc :: rest => addLog st (perCaseLine tc) :: loopStates (addLog st (perCaseLine tc)) rest

/-- The snapshots of the per-case loop are exactly `loopStates`. -/
theorem scriptLoop_fstSnaps {E : Type} (g : TestCase → String → String → String)
    (p u : String) :
    ∀ (l : List TestCase) (st : RunSt E),
      snapshotsOf (scriptLoop g p u l st).1 = loopStates st l
  | [], _ => rfl
  | tc :: rest, st => by
      simp only [scriptLoop, loopStates, snapshotsOf_yield_cons,
        snapshotsOf_callScript_cons]
      rw [scriptLoop_fstSnaps g p u rest (addLog st (perCaseLine tc))]

/-- The script-synthesizer calls of the per-case loop: the processed
cases, in order. -/
theorem scriptLoop_scriptTCs {E : Type} (g : TestCase → String → String → String)
    (p u : String) :
    ∀ (l : List TestCase) (st : RunSt E),
      scriptTCsOf (scriptLoop g p u l st).1 = l
  | [], _ => rfl
  | tc :: rest, st => by
      simp only [scriptLoop, scriptTCsOf, List.filterMap_cons]
      rw [← scriptTCsOf, scriptLoop_scriptTCs g p u rest (addLog st (perCaseLine tc))]

/-- The script-call payloads of the per-case loop: the fixed element
view, once per processed case. -/
theorem scriptLoop_scriptPayloads {E : Type}
    (g : TestCase → String → String → String) (p u : String) :
    ∀ (l : List TestCase) (st : RunSt E),
      scriptPayloadsOf (scriptLoop g p u l st).1 = l.map (fun _ => p)
  | [], _ => rfl
  | tc :: rest, st => by
      simp only [scriptLoop, scriptPayloadsOf, List.filterMap_cons, List.map_cons]
      rw [← scriptPayloadsOf,
        scriptLoop_scriptPayloads g p u rest (addLog st (perCaseLine tc))]

/-- The per-case loop makes no case-synthesizer call. -/
theorem scriptLoop_casesPayloads {E : Type}
    (g : TestCase → String → String → String) (p u : String) :
    ∀ (l : List TestCase) (st : RunSt E),
      casesPayloadsOf (scriptLoop g p u l st).1 = []
  | [], _ => rfl
  | tc :: rest, st => by
      simp only [scriptLoop, casesPayloadsOf, List.filterMap_cons]
      rw [← casesPayloadsOf,
        scriptLoop_casesPayloads g p u rest (addLog st (perCaseLine tc))]

/-- The per-case loop persists no elements. -/
theorem scriptLoop_persistElems {E : Type}
    (g : TestCase → String → String → String) (p u : String) :
    ∀ (l : List TestCase) (st : RunSt E),
      persistElemsOf (scriptLoop g p u l st).1 = []
  | [], _ => rfl
  | tc :: rest, st => by
      simp only [scriptLoop, persistElemsOf, List.filterMap_cons]
      rw [← persistElemsOf,
        scriptLoop_persistElems g p u rest (addLog st (perCaseLine tc))]

/-- Every state yielded inside the loop extends the starting state by
per-case lines only: the log grows by a non-empty prefix of the
per-case lines and every other field is unchanged. -/
theorem loopStates_mem {E : Type} :
    ∀ (l : List TestCase) (st : RunSt E) {s : RunSt E}, s ∈ loopStates st l →
      (∃ pre : List TestCase,
        s.status_updates = st.status_updates ++ pre.map perCaseLine) ∧
      s.elements_json_str = st.elements_json_str ∧
      s.test_cases_df = st.test_cases_df ∧
      s.scripts_df = st.scripts_df ∧
      s.elements_filepath = st.elements_filepath ∧
      s.test_cases_filepath = st.test_cases_filepath ∧
      s.scripts_filepath = st.scripts_filepath
  | [], _, _, h => by simp [loopStates] at h
  | tc :: rest, st, s, h => by
      rw [loopStates, List.mem_cons] at h
      cases h with
      | inl h =>
          subst h
          exact ⟨⟨[tc], by simp [addLog]⟩, rfl, rfl, rfl, rfl, rfl, rfl⟩
      | inr h =>
          obtain ⟨⟨pre, hpre⟩, h1, h2, h3, h4, h5, h6⟩ :=
            loopStates_mem rest (addLog st (perCaseLine tc)) h
          refine ⟨⟨tc :: pre, ?_⟩, h1, h2, h3, h4, h5, h6⟩
          simp only [addLog] at hpre
          simp [hpre]

/-! ## Distribution lemmas for the call/persist observations -/

@[simp]
theorem casesPayloadsOf_nil {E : Type} : casesPayloadsOf ([] : List (Event E)) = [] := rfl

@[simp]
theorem casesPayloadsOf_yield_cons {E : Type} (s : RunSt E) (evs : List (Event E)) :
    casesPayloadsOf (Event.yieldSnap s :: evs) = casesPayloadsOf evs := rfl

@[simp]
theorem casesPayloadsOf_callExtract_cons {E : Type} (u : String) (evs : List (Event E)) :
    casesPayloadsOf (Event.callExtract u :: evs) = casesPayloadsOf evs := rfl

@[simp]
theorem casesPayloadsOf_callCases_cons {E : Type} (p u : String) (n : Nat) (evs : List (Event E)) :
    casesPayloadsOf (Event.callCases p u n :: evs) = p :: casesPayloadsOf evs := rfl

@[simp]
theorem casesPayloadsOf_callScript_cons {E : Type} (tc : TestCase) (p u : String) (evs : List (Event E)) :
    casesPayloadsOf (Event.callScript tc p u :: evs) = casesPayloadsOf evs := rfl

@[simp]
theorem casesPayloadsOf_persistElements_cons {E : Type} (es : List E) (f : String) (evs : List (Event E)) :
    casesPayloadsOf (Event.persistElements es f :: evs) = casesPayloadsOf evs := rfl

@[simp]
theorem casesPayloadsOf_persistTestCases_cons {E : Type} (l : List TestCase) (f : String) (evs : List (Event E)) :
    casesPayloadsOf (Event.persistTestCases l f :: evs) = casesPayloadsOf evs := rfl

@[simp]
theorem casesPayloadsOf_persistScripts_cons {E : Type} (l : List Script) (f : String) (evs : List (Event E)) :
    casesPayloadsOf (Event.persistScripts l f :: evs) = casesPayloadsOf evs := rfl

@[simp]
theorem casesPayloadsOf_append {E : Type} (a b : List (Event E)) :
    casesPayloadsOf (a ++ b) = casesPayloadsOf a ++ casesPayloadsOf b :=
  List.filterMap_append a b _

@[simp]
theorem scriptPayloadsOf_nil {E : Type} : scriptPayloadsOf ([] : List (Event E)) = [] := rfl

@[simp]
theorem scriptPayloadsOf_yield_cons {E : Type} (s : RunSt E) (evs : List (Event E)) :
    scriptPayloadsOf (Event.yieldSnap s :: evs) = scriptPayloadsOf evs := rfl

@[simp]
theorem scriptPayloadsOf_callExtract_cons {E : Type} (u : String) (evs : List (Event E)) :
    scriptPayloadsOf (Event.callExtract u :: evs) = scriptPayloadsOf evs := rfl

@[simp]
theorem scriptPayloadsOf_callCases_cons {E : Type} (p u : String) (n : Nat) (evs : List (Event E)) :
    scriptPayloadsOf (Event.callCases p u n :: evs) = scriptPayloadsOf evs := rfl

@[simp]
theorem scriptPayloadsOf_callScript_cons {E : Type} (tc : TestCase) (p u : String) (evs : List (Event E)) :
    scriptPayloadsOf (Event.callScript tc p u :: evs) = p :: scriptPayloadsOf evs := rfl

@[simp]
theorem scriptPayloadsOf_persistElements_cons {E : Type} (es : List E) (f : String) (evs : List (Event E)) :
    scriptPayloadsOf (Event.persistElements es f :: evs) = scriptPayloadsOf evs := rfl

@[simp]
theorem scriptPayloadsOf_persistTestCases_cons {E : Type} (l : List TestCase) (f : String) (evs : List (Event E)) :
    scriptPayloadsOf (Event.persistTestCases l f :: evs) = scriptPayloadsOf evs := rfl

@[simp]
theorem scriptPayloadsOf_persistScripts_cons {E : Type} (l : List Script) (f : String) (evs : List (Event E)) :
    scriptPayloadsOf (Event.persistScripts l f :: evs) = scriptPayloadsOf evs := rfl

@[simp]
theorem scriptPayloadsOf_append {E : Type} (a b : List (Event E)) :
    scriptPayloadsOf (a ++ b) = scriptPayloadsOf a ++ scriptPayloadsOf b :=
  List.filterMap_append a b _

@[simp]
theorem scriptTCsOf_nil {E : Type} : scriptTCsOf ([] : List (Event E)) = [] := rfl

@[simp]
theorem scriptTCsOf_yield_cons {E : Type} (s : RunSt E) (evs : List (Event E)) :
    scriptTCsOf (Event.yieldSnap s :: evs) = scriptTCsOf evs := rfl

@[simp]
theorem scriptTCsOf_callExtract_cons {E : Type} (u : String) (evs : List (Event E)) :
    scriptTCsOf (Event.callExtract u :: evs) = scriptTCsOf evs := rfl

@[simp]
theorem scriptTCsOf_callCases_cons {E : Type} (p u : String) (n : Nat) (evs : List (Event E)) :
    scriptTCsOf (Event.callCases p u n :: evs) = scriptTCsOf evs := rfl

@[simp]
theorem scriptTCsOf_callScript_cons {E : Type} (tc : TestCase) (p u : String) (evs : List (Event E)) :
    scriptTCsOf (Event.callScript tc p u :: evs) = tc :: scriptTCsOf evs := rfl

@[simp]
theorem scriptTCsOf_persistElements_cons {E : Type} (es : List E) (f : String) (evs : List (Event E)) :
    scriptTCsOf (Event.persistElements es f :: evs) = scriptTCsOf evs := rfl

@[simp]
theorem scriptTCsOf_persistTestCases_cons {E : Type} (l : List TestCase) (f : String) (evs : List (Event E)) :
    scriptTCsOf (Event.persistTestCases l f :: evs) = scriptTCsOf evs := rfl

@[simp]
theorem scriptTCsOf_persistScripts_cons {E : Type} (l : List Script) (f : String) (evs : List (Event E)) :
    scriptTCsOf (Event.persistScripts l f :: evs) = scriptTCsOf evs := rfl

@[simp]
theorem scriptTCsOf_append {E : Type} (a b : List (Event E)) :
    scriptTCsOf (a ++ b) = scriptTCsOf a ++ scriptTCsOf b :=
  List.filterMap_append a b _

@[simp]
theorem persistElemsOf_nil {E : Type} : persistElemsOf ([] : List (Event E)) = [] := rfl

@[simp]
theorem persistElemsOf_yield_cons {E : Type} (s : RunSt E) (evs : List (Event E)) :
    persistElemsOf (Event.yieldSnap s :: evs) = persistElemsOf evs := rfl

@[simp]
theorem persistElemsOf_callExtract_cons {E : Type} (u : String) (evs : List (Event E)) :
    persistElemsOf (Event.callExtract u :: evs) = persistElemsOf evs := rfl

@[simp]
theorem persistElemsOf_callCases_cons {E : Type} (p u : String) (n : Nat) (evs : List (Event E)) :
    persistElemsOf (Event.callCases p u n :: evs) = persistElemsOf evs := rfl

@[simp]
theorem persistElemsOf_callScript_cons {E : Type} (tc : TestCase) (p u : String) (evs : List (Event E)) :
    persistElemsOf (Event.callScript tc p u :: evs) = persistElemsOf evs := rfl

@[simp]
theorem persistElemsOf_persistElements_cons {E : Type} (es : List E) (f : String) (evs : List (Event E)) :
    persistElemsOf (Event.persistElements es f :: evs) = es :: persistElemsOf evs := rfl

@[simp]
theorem persistElemsOf_persistTestCases_cons {E : Type} (l : List TestCase) (f : String) (evs : List (Event E)) :
    persistElemsOf (Event.persistTestCases l f :: evs) = persistElemsOf evs := rfl

@[simp]
theorem persistElemsOf_persistScripts_cons {E : Type} (l : List Script) (f : String) (evs : List (Event E)) :
    persistElemsOf (Event.persistScripts l f :: evs) = persistElemsOf evs := rfl

@[simp]
theorem persistElemsOf_append {E : Type} (a b : List (Event E)) :
    persistElemsOf (a ++ b) = persistElemsOf a ++ persistElemsOf b :=
  List.filterMap_append a b _

/-! ## The truncation note differs from every other log line -/

theorem trunc_ne_started : truncNoteLine ≠ startedLine := by decide

theorem trunc_ne_warn : truncNoteLine ≠ warnLine := by decide

theorem trunc_ne_stop : truncNoteLine ≠ stopLine := by decide

theorem trunc_ne_stage3 : truncNoteLine ≠ stage3Line := by decide

theorem trunc_ne_noValid : truncNoteLine ≠ noValidLine := by decide

theorem trunc_ne_skipping : truncNoteLine ≠ skippingLine := by decide

theorem trunc_ne_finished : truncNoteLine ≠ finishedLine := by decide

theorem trunc_ne_scraping (url : String) : truncNoteLine ≠ scrapingLine url := by
  apply str_ne_of_nth 0
  simp [scrapingLine, truncNoteLine, String.data_append]

theorem trunc_ne_extracted (cnt : Nat) (fp : String) :
    truncNoteLine ≠ extractedLine cnt fp := by
  apply str_ne_of_nth 3
  simp [extractedLine, truncNoteLine, String.data_append, List.getElem?_append]

theorem trunc_ne_stage2 (n : Nat) : truncNoteLine ≠ stage2Line n := by
  apply str_ne_of_nth 0
  simp [stage2Line, truncNoteLine, String.data_append]

theorem trunc_ne_tcSuccess (cnt : Nat) (fp : String) :
    truncNoteLine ≠ tcSuccessLine cnt fp := by
  apply str_ne_of_nth 3
  simp [tcSuccessLine, truncNoteLine, String.data_append, List.getElem?_append]

theorem trunc_ne_mapping (cnt : Nat) : truncNoteLine ≠ mappingLine cnt := by
  apply str_ne_of_nth 3
  simp [mappingLine, truncNoteLine, String.data_append, List.getElem?_append]

theorem trunc_ne_perCase (tc : TestCase) : truncNoteLine ≠ perCaseLine tc := by
  apply str_ne_of_nth 3
  simp [perCaseLine, truncNoteLine, String.data_append, List.getElem?_append]

theorem trunc_ne_scriptsSuccess (cnt : Nat) (fp : String) :
    truncNoteLine ≠ scriptsSuccessLine cnt fp := by
  apply str_ne_of_nth 3
  simp [scriptsSuccessLine, truncNoteLine, String.data_append, List.getElem?_append]

/-! ## Stage-wise observation lemmas -/

/-- Reversed orientation of `trunc_ne_perCase`, for simp. -/
theorem perCase_ne_trunc (tc : TestCase) : perCaseLine tc ≠ truncNoteLine :=
  fun h => trunc_ne_perCase tc h.symm

/-- Stage 3 makes no case-synthesizer call, passes only the given
payload to script-synthesizer calls, persists no elements, and its
snapshots keep the elements field and introduce no truncation note
into the log. -/
theorem stage3_obs {E : Type} (env : Env E) (url payload stem : String)
    (gf : Bool) (st : RunSt E) :
    casesPayloadsOf (stage3 env url payload stem gf st) = [] ∧
    (∀ p ∈ scriptPayloadsOf (stage3 env url payload stem gf st), p = payload) ∧
    persistElemsOf (stage3 env url payload stem gf st) = [] ∧
    (∀ s ∈ snapshotsOf (stage3 env url payload stem gf st),
      s.elements_json_str = st.elements_json_str ∧
      (truncNoteLine ∈ s.status_updates → truncNoteLine ∈ st.status_updates)) := by
  simp only [stage3, completion]
  split
  · refine ⟨rfl, by simp, rfl, ?_⟩
    intro s hs
    simp only [snapshotsOf_yield_cons, snapshotsOf_nil, List.mem_cons,
      List.not_mem_nil, or_false] at hs
    rcases hs with rfl | rfl | rfl <;>
      exact ⟨rfl, fun h => by
        simpa [addLog, trunc_ne_stage3, trunc_ne_noValid, trunc_ne_finished]
          using h⟩
  split
  · refine ⟨?_, ?_, ?_, ?_⟩
    · simp [scriptLoop_casesPayloads]
    · simp only [scriptPayloadsOf_yield_cons, scriptPayloadsOf_append,
        scriptPayloadsOf_persistScripts_cons, scriptPayloadsOf_nil,
        scriptLoop_scriptPayloads, List.append_nil]
      intro p hp
      simp only [List.mem_map] at hp
      obtain ⟨tc, _, rfl⟩ := hp
      rfl
    · simp [scriptLoop_persistElems]
    · intro s hs
      simp only [snapshotsOf_yield_cons, snapshotsOf_append,
        snapshotsOf_persistScripts_cons, snapshotsOf_nil, scriptLoop_fstSnaps,
        List.mem_cons, List.mem_append, List.not_mem_nil, or_false] at hs
      rcases hs with rfl | rfl | hs | rfl | rfl
      · exact ⟨rfl, fun h => by simpa [addLog, trunc_ne_stage3] using h⟩
      · exact ⟨rfl, fun h => by
          simpa [addLog, trunc_ne_stage3, trunc_ne_mapping] using h⟩
      · obtain ⟨⟨pre, hpre⟩, h1, _, _, _, _, _⟩ := loopStates_mem _ _ hs
        refine ⟨by simpa [addLog] using h1, ?_⟩
        intro h
        rw [hpre] at h
        simpa [addLog, trunc_ne_stage3, trunc_ne_mapping, perCase_ne_trunc]
          using h
      · rw [scriptLoop_stateEq]
        exact ⟨rfl, fun h => by
          simpa [addLog, trunc_ne_stage3, trunc_ne_mapping, perCase_ne_trunc,
            trunc_ne_scriptsSuccess] using h⟩
      · rw [scriptLoop_stateEq]
        exact ⟨rfl, fun h => by
          simpa [addLog, trunc_ne_stage3, trunc_ne_mapping, perCase_ne_trunc,
            trunc_ne_scriptsSuccess, trunc_ne_finished] using h⟩
  · refine ⟨rfl, by simp, rfl, ?_⟩
    intro s hs
    simp only [snapshotsOf_yield_cons, snapshotsOf_nil, List.mem_cons,
      List.not_mem_nil, or_false] at hs
    rcases hs with rfl | rfl | rfl <;>
      exact ⟨rfl, fun h => by
        simpa [addLog, trunc_ne_stage3, trunc_ne_skipping, trunc_ne_finished]
          using h⟩

/-- Stage 2 (with whatever follows it) passes only the given payload
to the synthesizer calls, persists no elements, and its snapshots keep
the elements field and introduce no truncation note into the log. -/
theorem stage2_obs {E : Type} (env : Env E) (url payload stem : String) (n : Nat)
    (st4 : RunSt E) :
    (∀ p ∈ casesPayloadsOf (stage2 env url payload stem n st4), p = payload) ∧
    (∀ p ∈ scriptPayloadsOf (stage2 env url payload stem n st4), p = payload) ∧
    persistElemsOf (stage2 env url payload stem n st4) = [] ∧
    (∀ s ∈ snapshotsOf (stage2 env url payload stem n st4),
      s.elements_json_str = st4.elements_json_str ∧
      (truncNoteLine ∈ s.status_updates → truncNoteLine ∈ st4.status_updates)) := by
  simp only [stage2, stage2crit]
  split
  · split
    · split
      · -- generation failed, non-empty table, critical: stop
        refine ⟨by simp, by simp, rfl, ?_⟩
        intro s hs
        simp only [snapshotsOf_yield_cons, snapshotsOf_callCases_cons,
          snapshotsOf_persistTestCases_cons, snapshotsOf_nil, List.mem_cons,
          List.not_mem_nil, or_false] at hs
        rcases hs with rfl | rfl | rfl <;>
          exact ⟨rfl, fun h => by
            simpa [addLog, trunc_ne_stage2, trunc_ne_warn, trunc_ne_stop]
              using h⟩
      · -- generation failed, non-empty table, soft: stage 3
        refine ⟨?_, ?_, ?_, ?_⟩
        · simp only [casesPayloadsOf_yield_cons, casesPayloadsOf_callCases_cons,
            casesPayloadsOf_persistTestCases_cons,
            (stage3_obs env url payload stem true _).1]
          simp
        · simp only [scriptPayloadsOf_yield_cons, scriptPayloadsOf_callCases_cons,
            scriptPayloadsOf_persistTestCases_cons]
          exact (stage3_obs env url payload stem true _).2.1
        · simp only [persistElemsOf_yield_cons, persistElemsOf_callCases_cons,
            persistElemsOf_persistTestCases_cons]
          exact (stage3_obs env url payload stem true _).2.2.1
        · intro s hs
          simp only [snapshotsOf_yield_cons, snapshotsOf_callCases_cons,
            snapshotsOf_persistTestCases_cons, List.mem_cons] at hs
          rcases hs with rfl | rfl | hs
          · exact ⟨rfl, fun h => by simpa [addLog, trunc_ne_stage2] using h⟩
          · exact ⟨rfl, fun h => by
              simpa [addLog, trunc_ne_stage2, trunc_ne_warn] using h⟩
          · obtain ⟨he, hi⟩ := (stage3_obs env url payload stem true _).2.2.2 s hs
            refine ⟨by rw [he]; rfl, fun h => ?_⟩
            have := hi h
            simpa [addLog, trunc_ne_stage2, trunc_ne_warn] using this
    · split
      · -- generation failed, empty table, critical: stop
        refine ⟨by simp, by simp, rfl, ?_⟩
        intro s hs
        simp only [snapshotsOf_yield_cons, snapshotsOf_callCases_cons,
          snapshotsOf_nil, List.mem_cons, List.not_mem_nil, or_false] at hs
        rcases hs with rfl | rfl | rfl <;>
          exact ⟨rfl, fun h => by
            simpa [addLog, trunc_ne_stage2, trunc_ne_warn, trunc_ne_stop]
              using h⟩
      · -- generation failed, empty table, soft: stage 3
        refine ⟨?_, ?_, ?_, ?_⟩
        · simp only [casesPayloadsOf_yield_cons, casesPayloadsOf_callCases_cons,
            (stage3_obs env url payload stem true _).1]
          simp
        · simp only [scriptPayloadsOf_yield_cons, scriptPayloadsOf_callCases_cons]
          exact (stage3_obs env url payload stem true _).2.1
        · simp only [persistElemsOf_yield_cons, persistElemsOf_callCases_cons]
          exact (stage3_obs env url payload stem true _).2.2.1
        · intro s hs
          simp only [snapshotsOf_yield_cons, snapshotsOf_callCases_cons,
            List.mem_cons] at hs
          rcases hs with rfl | rfl | hs
          · exact ⟨rfl, fun h => by simpa [addLog, trunc_ne_stage2] using h⟩
          · exact ⟨rfl, fun h => by
              simpa [addLog, trunc_ne_stage2, trunc_ne_warn] using h⟩
          · obtain ⟨he, hi⟩ := (stage3_obs env url payload stem true _).2.2.2 s hs
            refine ⟨by rw [he]; rfl, fun h => ?_⟩
            have := hi h
            simpa [addLog, trunc_ne_stage2, trunc_ne_warn] using this
  · -- generation succeeded: stage 3
    refine ⟨?_, ?_, ?_, ?_⟩
    · simp only [casesPayloadsOf_yield_cons, casesPayloadsOf_callCases_cons,
        casesPayloadsOf_persistTestCases_cons,
        (stage3_obs env url payload stem false _).1]
      simp
    · simp only [scriptPayloadsOf_yield_cons, scriptPayloadsOf_callCases_cons,
        scriptPayloadsOf_persistTestCases_cons]
      exact (stage3_obs env url payload stem false _).2.1
    · simp only [persistElemsOf_yield_cons, persistElemsOf_callCases_cons,
        persistElemsOf_persistTestCases_cons]
      exact (stage3_obs env url payload stem false _).2.2.1
    · intro s hs
      simp only [snapshotsOf_yield_cons, snapshotsOf_callCases_cons,
        snapshotsOf_persistTestCases_cons, List.mem_cons] at hs
      rcases hs with rfl | rfl | hs
      · exact ⟨rfl, fun h => by simpa [addLog, trunc_ne_stage2] using h⟩
      · exact ⟨rfl, fun h => by
          simpa [addLog, trunc_ne_stage2, trunc_ne_tcSuccess] using h⟩
      · obtain ⟨he, hi⟩ := (stage3_obs env url payload stem false _).2.2.2 s hs
        refine ⟨by rw [he]; rfl, fun h => ?_⟩
        have := hi h
        simpa [addLog, trunc_ne_stage2, trunc_ne_tcSuccess] using this

/-! ## Claim C6: truncation of the element view -/

/-- C6: when extraction returns more than 100 elements, every payload
passed to the case synthesizer and to every script-synthesizer call is
the dump of exactly the first 100 elements in extraction order, while
the elements field of every snapshot holds either the initial
placeholder or the dump of the full untruncated sequence, the persisted
elements artifact receives the full sequence, and a snapshot is emitted
whose log ends with the truncation note.  With 100 or fewer elements
the full sequence is dumped as the payload and the truncation note
appears in no snapshot's log (hence no snapshot is emitted for it). -/
theorem claim_C6 {E : Type} (env : Env E) (url : String) (n : Nat)
    (hv : invalidInput url = false)
    (hx : env.extract_elements url ≠ []) :
    ((env.extract_elements url).length > 100 →
      (∀ p ∈ casesPayloadsOf (process_website env url n),
        p = env.dumpsIndent2 ((env.extract_elements url).take 100)) ∧
      (∀ p ∈ scriptPayloadsOf (process_website env url n),
        p = env.dumpsIndent2 ((env.extract_elements url).take 100)) ∧
      (∀ es ∈ persistElemsOf (process_website env url n),
        es = env.extract_elements url) ∧
      (∀ s ∈ snapshotsOf (process_website env url n),
        s.elements_json_str = "\x7b\x7d" ∨
        s.elements_json_str = env.dumpsIndent4 (env.extract_elements url)) ∧
      (∃ s ∈ snapshotsOf (process_website env url n),
        s.status_updates.getLast? = some truncNoteLine)) ∧
    (¬(env.extract_elements url).length > 100 →
      (∀ p ∈ casesPayloadsOf (process_website env url n),
        p = env.dumpsIndent2 (env.extract_elements url)) ∧
      (∀ p ∈ scriptPayloadsOf (process_website env url n),
        p = env.dumpsIndent2 (env.extract_elements url)) ∧
      (∀ s ∈ snapshotsOf (process_website env url n),
        truncNoteLine ∉ s.status_updates)) := by
  cases hE : env.extract_elements url with
  | nil => exact absurd hE hx
  | cons a as =>
      constructor
      · intro h100
        simp only [process_website, hv, Bool.false_eq_true, if_false, hE,
          List.isEmpty_cons]
        rw [if_pos h100]
        refine ⟨?_, ?_, ?_, ?_, ?_⟩
        · simp only [casesPayloadsOf_yield_cons, casesPayloadsOf_callExtract_cons,
            casesPayloadsOf_persistElements_cons]
          exact (stage2_obs env url _ (urlStem url) n _).1
        · simp only [scriptPayloadsOf_yield_cons, scriptPayloadsOf_callExtract_cons,
            scriptPayloadsOf_persistElements_cons]
          exact (stage2_obs env url _ (urlStem url) n _).2.1
        · simp only [persistElemsOf_yield_cons, persistElemsOf_callExtract_cons,
            persistElemsOf_persistElements_cons,
            (stage2_obs env url (env.dumpsIndent2 (List.take 100 (a :: as)))
              (urlStem url) n _).2.2.1]
          simp
        · intro s hs
          simp only [snapshotsOf_yield_cons, snapshotsOf_callExtract_cons,
            snapshotsOf_persistElements_cons, List.mem_cons] at hs
          rcases hs with rfl | rfl | rfl | rfl | hs
          · exact Or.inl rfl
          · exact Or.inl rfl
          · exact Or.inr rfl
          · exact Or.inr rfl
          · obtain ⟨he, _⟩ := (stage2_obs env url _ (urlStem url) n _).2.2.2 s hs
            exact Or.inr (by rw [he]; rfl)
        · simp only [snapshotsOf_yield_cons, snapshotsOf_callExtract_cons,
            snapshotsOf_persistElements_cons]
          exact ⟨_, List.mem_cons_of_mem _ (List.mem_cons_of_mem _
            (List.mem_cons_of_mem _ (List.mem_cons_self _ _))),
            List.getLast?_concat _⟩
      · intro h100
        simp only [process_website, hv, Bool.false_eq_true, if_false, hE,
          List.isEmpty_cons]
        rw [if_neg h100]
        refine ⟨?_, ?_, ?_⟩
        · simp only [casesPayloadsOf_yield_cons, casesPayloadsOf_callExtract_cons,
            casesPayloadsOf_persistElements_cons]
          exact (stage2_obs env url _ (urlStem url) n _).1
        · simp only [scriptPayloadsOf_yield_cons, scriptPayloadsOf_callExtract_cons,
            scriptPayloadsOf_persistElements_cons]
          exact (stage2_obs env url _ (urlStem url) n _).2.1
        · intro s hs
          simp only [snapshotsOf_yield_cons, snapshotsOf_callExtract_cons,
            snapshotsOf_persistElements_cons, List.mem_cons] at hs
          rcases hs with rfl | rfl | rfl | hs
          · simp [addLog, initSt, trunc_ne_started]
          · simp [addLog, initSt, trunc_ne_started, trunc_ne_scraping]
          · simp [addLog, initSt, trunc_ne_started, trunc_ne_scraping,
              trunc_ne_extracted]
          · obtain ⟨_, hi⟩ := (stage2_obs env url _ (urlStem url) n _).2.2.2 s hs
            intro h
            have := hi h
            simp [addLog, initSt, trunc_ne_started, trunc_ne_scraping,
              trunc_ne_extracted] at this

/-- Witness environment with 101 extracted elements. -/
def envC6 : Env Nat :=
  { extract_elements := fun _ => List.range 101
    dumpsIndent4 := fun es => "J4:" ++ toString es.length
    dumpsIndent2 := fun es => "J2:" ++ toString es.length
    genTestCases := fun _ _ _ => []
    genScript := fun _ _ _ => "print(1)"
    save_elements_to_json := fun _ fn => "outputs/" ++ fn
    save_test_cases_to_excel := fun _ fn => "outputs/" ++ fn
    save_scripts_to_excel := fun _ fn => "outputs/" ++ fn }

/-- Witness for C6: a 101-element run truncates the payload and logs
the note; a 2-element run never logs the note. -/
theorem claim_C6_witness :
    invalidInput "https://a.com" = false ∧
    envC6.extract_elements "https://a.com" ≠ [] ∧
    (envC6.extract_elements "https://a.com").length > 100 ∧
    ((∀ p ∈ casesPayloadsOf (process_website envC6 "https://a.com" 1),
        p = envC6.dumpsIndent2 ((envC6.extract_elements "https://a.com").take 100)) ∧
      (∃ s ∈ snapshotsOf (process_website envC6 "https://a.com" 1),
        s.status_updates.getLast? = some truncNoteLine)) ∧
    (¬(envW.extract_elements "https://b.com").length > 100 ∧
      (∀ s ∈ snapshotsOf (process_website envW "https://b.com" 1),
        truncNoteLine ∉ s.status_updates)) :=
  ⟨by decide, by decide, by decide,
    ⟨((claim_C6 envC6 "https://a.com" 1 (by decide) (by decide)).1 (by decide)).1,
      ((claim_C6 envC6 "https://a.com" 1 (by decide) (by decide)).1
        (by decide)).2.2.2.2⟩,
    ⟨by decide,
      ((claim_C6 envW "https://b.com" 1 (by decide) (by decide)).2 (by decide)).2.2⟩⟩

/-! ## Claim C9: persist failures do not abort the run -/

/-- Whether an artifact-path field is set to a usable path (utils.py
returns `""` as its failure indicator, and the field starts as
Python `None`). -/
def pathIsSet : Option String → Bool
  | none => false
  | some s => !(s == "")

/-- The collaborator calls of the per-case loop: one script call per
case, in order. -/
theorem scriptLoop_callEvents {E : Type} (g : TestCase → String → String → String)
    (p u : String) :
    ∀ (l : List TestCase) (st : RunSt E),
      callEventsOf (scriptLoop g p u l st).1 =
        l.map (fun tc => Event.callScript tc p u)
  | [], _ => rfl
  | tc :: rest, st => by
      simp only [scriptLoop, callEventsOf_yield_cons, callEventsOf_callScript_cons,
        List.map_cons]
      rw [scriptLoop_callEvents g p u rest (addLog st (perCaseLine tc))]

/-- The collaborator calls of stage 3 depend only on the current
test-case table. -/
theorem stage3_callEvents {E : Type} (env env' : Env E)
    (url payload stem : String) (gf : Bool) (st st' : RunSt E)
    (hdf : st.test_cases_df = st'.test_cases_df) :
    callEventsOf (stage3 env url payload stem gf st) =
      callEventsOf (stage3 env' url payload stem gf st') := by
  simp only [stage3, completion, hdf]
  split
  · simp
  · split
    · simp only [callEventsOf_yield_cons, callEventsOf_append,
        callEventsOf_persistScripts_cons, callEventsOf_nil,
        scriptLoop_callEvents]
    · simp

/-- The collaborator calls of stage 2 (and what follows) depend only on
the case synthesizer and the current test-case table. -/
theorem stage2_callEvents {E : Type} (env env' : Env E)
    (url payload stem : String) (n : Nat) (st st' : RunSt E)
    (hg : env.genTestCases = env'.genTestCases)
    (hdf : st.test_cases_df = st'.test_cases_df) :
    callEventsOf (stage2 env url payload stem n st) =
      callEventsOf (stage2 env' url payload stem n st') := by
  simp only [stage2, stage2crit, addLog, ← hg, hdf]
  split
  · split
    · split
      · simp
      · simp only [callEventsOf_yield_cons, callEventsOf_callCases_cons,
          callEventsOf_persistTestCases_cons]
        exact congrArg _ (stage3_callEvents env env' url payload stem true _ _
          (by simp [addLog]))
    · split
      · simp
      · simp only [callEventsOf_yield_cons, callEventsOf_callCases_cons]
        exact congrArg _ (stage3_callEvents env env' url payload stem true _ _
          (by simp [addLog, hdf]))
  · simp only [callEventsOf_yield_cons, callEventsOf_callCases_cons,
      callEventsOf_persistTestCases_cons]
    exact congrArg _ (stage3_callEvents env env' url payload stem false _ _
      (by simp [addLog]))

/-- Artifact-path fields of stage-3 snapshots: the elements and
test-case paths are inherited, the scripts path is inherited or set to
an exporter result. -/
theorem stage3_paths {E : Type} (env : Env E) (url payload stem : String)
    (gf : Bool) (st : RunSt E) :
    ∀ s ∈ snapshotsOf (stage3 env url payload stem gf st),
      s.elements_filepath = st.elements_filepath ∧
      s.test_cases_filepath = st.test_cases_filepath ∧
      (s.scripts_filepath = st.scripts_filepath ∨
        ∃ scr fn, s.scripts_filepath = some (env.save_scripts_to_excel scr fn)) := by
  simp only [stage3, completion]
  split
  · intro s hs
    simp only [snapshotsOf_yield_cons, snapshotsOf_nil, List.mem_cons,
      List.not_mem_nil, or_false] at hs
    rcases hs with rfl | rfl | rfl <;> exact ⟨rfl, rfl, Or.inl rfl⟩
  split
  · intro s hs
    simp only [snapshotsOf_yield_cons, snapshotsOf_append,
      snapshotsOf_persistScripts_cons, snapshotsOf_nil, scriptLoop_fstSnaps,
      List.mem_cons, List.mem_append, List.not_mem_nil, or_false] at hs
    rcases hs with rfl | rfl | hs | rfl | rfl
    · exact ⟨rfl, rfl, Or.inl rfl⟩
    · exact ⟨rfl, rfl, Or.inl rfl⟩
    · obtain ⟨_, _, _, _, h4, h5, h6⟩ := loopStates_mem _ _ hs
      exact ⟨by simpa [addLog] using h4, by simpa [addLog] using h5,
        Or.inl (by simpa [addLog] using h6)⟩
    · rw [scriptLoop_stateEq]
      exact ⟨rfl, rfl, Or.inr ⟨_, _, rfl⟩⟩
    · rw [scriptLoop_stateEq]
      exact ⟨rfl, rfl, Or.inr ⟨_, _, rfl⟩⟩
  · intro s hs
    simp only [snapshotsOf_yield_cons, snapshotsOf_nil, List.mem_cons,
      List.not_mem_nil, or_false] at hs
    rcases hs with rfl | rfl | rfl <;> exact ⟨rfl, rfl, Or.inl rfl⟩

/-- Artifact-path fields of stage-2 snapshots: the elements path is
inherited; the test-case path is inherited, cleared, or an exporter
result; the scripts path is inherited or an exporter result. -/
theorem stage2_paths {E : Type} (env : Env E) (url payload stem : String)
    (n : Nat) (st4 : RunSt E) :
    ∀ s ∈ snapshotsOf (stage2 env url payload stem n st4),
      s.elements_filepath = st4.elements_filepath ∧
      (s.test_cases_filepath = st4.test_cases_filepath ∨
        s.test_cases_filepath = none ∨
        ∃ l fn, s.test_cases_filepath = some (env.save_test_cases_to_excel l fn)) ∧
      (s.scripts_filepath = st4.scripts_filepath ∨
        ∃ scr fn, s.scripts_filepath = some (env.save_scripts_to_excel scr fn)) := by
  simp only [stage2, stage2crit]
  split
  · split
    · split
      · intro s hs
        simp only [snapshotsOf_yield_cons, snapshotsOf_callCases_cons,
          snapshotsOf_persistTestCases_cons, snapshotsOf_nil, List.mem_cons,
          List.not_mem_nil, or_false] at hs
        rcases hs with rfl | rfl | rfl
        · exact ⟨rfl, Or.inl rfl, Or.inl rfl⟩
        · exact ⟨rfl, Or.inr (Or.inr ⟨_, _, rfl⟩), Or.inl rfl⟩
        · exact ⟨rfl, Or.inr (Or.inr ⟨_, _, rfl⟩), Or.inl rfl⟩
      · intro s hs
        simp only [snapshotsOf_yield_cons, snapshotsOf_callCases_cons,
          snapshotsOf_persistTestCases_cons, List.mem_cons] at hs
        rcases hs with rfl | rfl | hs
        · exact ⟨rfl, Or.inl rfl, Or.inl rfl⟩
        · exact ⟨rfl, Or.inr (Or.inr ⟨_, _, rfl⟩), Or.inl rfl⟩
        · obtain ⟨h1, h2, h3⟩ := stage3_paths env url payload stem true _ s hs
          exact ⟨h1, Or.inr (Or.inr ⟨_, _, h2⟩), h3⟩
    · split
      · intro s hs
        simp only [snapshotsOf_yield_cons, snapshotsOf_callCases_cons,
          snapshotsOf_nil, List.mem_cons, List.not_mem_nil, or_false] at hs
        rcases hs with rfl | rfl | rfl
        · exact ⟨rfl, Or.inl rfl, Or.inl rfl⟩
        · exact ⟨rfl, Or.inr (Or.inl rfl), Or.inl rfl⟩
        · exact ⟨rfl, Or.inr (Or.inl rfl), Or.inl rfl⟩
      · intro s hs
        simp only [snapshotsOf_yield_cons, snapshotsOf_callCases_cons,
          List.mem_cons] at hs
        rcases hs with rfl | rfl | hs
        · exact ⟨rfl, Or.inl rfl, Or.inl rfl⟩
        · exact ⟨rfl, Or.inr (Or.inl rfl), Or.inl rfl⟩
        · obtain ⟨h1, h2, h3⟩ := stage3_paths env url payload stem true _ s hs
          exact ⟨h1, Or.inr (Or.inl h2), h3⟩
  · intro s hs
    simp only [snapshotsOf_yield_cons, snapshotsOf_callCases_cons,
      snapshotsOf_persistTestCases_cons, List.mem_cons] at hs
    rcases hs with rfl | rfl | hs
    · exact ⟨rfl, Or.inl rfl, Or.inl rfl⟩
    · exact ⟨rfl, Or.inr (Or.inr ⟨_, _, rfl⟩), Or.inl rfl⟩
    · obtain ⟨h1, h2, h3⟩ := stage3_paths env url payload stem false _ s hs
      exact ⟨h1, Or.inr (Or.inr ⟨_, _, h2⟩), h3⟩

/-- C9: persist failures do not abort the run.  Two environments that
agree on everything except the exporters produce the same collaborator
calls (extraction, case synthesis and every script synthesis still
execute identically); and when an exporter always fails (returns the
`""` failure indicator), the corresponding artifact-path field of every
snapshot of the run remains unset. -/
theorem claim_C9 {E : Type} (env env' : Env E) (url : String) (n : Nat)
    (hx : env.extract_elements = env'.extract_elements)
    (hd2 : env.dumpsIndent2 = env'.dumpsIndent2)
    (hd4 : env.dumpsIndent4 = env'.dumpsIndent4)
    (hg : env.genTestCases = env'.genTestCases)
    (hsc : env.genScript = env'.genScript) :
    callEventsOf (process_website env url n) =
      callEventsOf (process_website env' url n) ∧
    ((∀ es fn, env.save_elements_to_json es fn = "") →
      ∀ s ∈ snapshotsOf (process_website env url n),
        pathIsSet s.elements_filepath = false) ∧
    ((∀ l fn, env.save_test_cases_to_excel l fn = "") →
      ∀ s ∈ snapshotsOf (process_website env url n),
        pathIsSet s.test_cases_filepath = false) ∧
    ((∀ l fn, env.save_scripts_to_excel l fn = "") →
      ∀ s ∈ snapshotsOf (process_website env url n),
        pathIsSet s.scripts_filepath = false) := by
  by_cases hv : invalidInput url = true
  · refine ⟨by simp [process_website, hv], ?_, ?_, ?_⟩ <;>
      · intro _ s hs
        simp only [process_website, hv, if_true, snapshotsOf_yield_cons,
          snapshotsOf_nil, List.mem_cons, List.not_mem_nil, or_false] at hs
        subst hs
        rfl
  · rw [Bool.not_eq_true] at hv
    cases hE : env.extract_elements url with
    | nil =>
        have hE' : env'.extract_elements url = [] := by rw [← hx]; exact hE
        refine ⟨?_, ?_, ?_, ?_⟩
        · simp [process_website, hv, hE, hE']
        all_goals
          intro _ s hs
          simp only [process_website, hv, Bool.false_eq_true, if_false, hE,
            List.isEmpty_nil, if_true, snapshotsOf_yield_cons,
            snapshotsOf_callExtract_cons, snapshotsOf_nil, List.mem_cons,
            List.not_mem_nil, or_false] at hs
          rcases hs with rfl | rfl | rfl <;> rfl
    | cons a as =>
        constructor
        · simp only [process_website, hv, Bool.false_eq_true, if_false, ← hx,
            ← hd2, ← hd4, hE, List.isEmpty_cons]
          by_cases h100 : (a :: as).length > 100
          · rw [if_pos h100, if_pos h100]
            simp only [callEventsOf_yield_cons, callEventsOf_callExtract_cons,
              callEventsOf_persistElements_cons]
            exact congrArg _ (stage2_callEvents env env' url _ (urlStem url) n _ _
              hg (by simp [addLog]))
          · rw [if_neg h100, if_neg h100]
            simp only [callEventsOf_yield_cons, callEventsOf_callExtract_cons,
              callEventsOf_persistElements_cons]
            exact congrArg _ (stage2_callEvents env env' url _ (urlStem url) n _ _
              hg (by simp [addLog]))
        refine ⟨?_, ?_, ?_⟩
        all_goals
          intro hfail s hs
          simp only [process_website, hv, Bool.false_eq_true, if_false, hE,
            List.isEmpty_cons] at hs
        · -- elements path
          by_cases h100 : (a :: as).length > 100
          all_goals
            first
              | rw [if_pos h100] at hs
              | rw [if_neg h100] at hs
          all_goals
            simp only [snapshotsOf_yield_cons, snapshotsOf_callExtract_cons,
              snapshotsOf_persistElements_cons, List.mem_cons] at hs
          · rcases hs with rfl | rfl | rfl | rfl | hs
            · rfl
            · rfl
            · simp [pathIsSet, initSt, hfail]
            · simp [pathIsSet, addLog, initSt, hfail]
            · obtain ⟨h1, -, -⟩ := stage2_paths env url _ (urlStem url) n _ s hs
              rw [h1]
              simp [pathIsSet, addLog, initSt, hfail]
          · rcases hs with rfl | rfl | rfl | hs
            · rfl
            · rfl
            · simp [pathIsSet, initSt, hfail]
            · obtain ⟨h1, -, -⟩ := stage2_paths env url _ (urlStem url) n _ s hs
              rw [h1]
              simp [pathIsSet, initSt, hfail]
        · -- test-cases path
          by_cases h100 : (a :: as).length > 100
          all_goals
            first
              | rw [if_pos h100] at hs
              | rw [if_neg h100] at hs
          all_goals
            simp only [snapshotsOf_yield_cons, snapshotsOf_callExtract_cons,
              snapshotsOf_persistElements_cons, List.mem_cons] at hs
          · rcases hs with rfl | rfl | rfl | rfl | hs
            · rfl
            · rfl
            · rfl
            · rfl
            · obtain ⟨-, h2, -⟩ := stage2_paths env url _ (urlStem url) n _ s hs
              rcases h2 with h2 | h2 | ⟨l, fn, h2⟩ <;> rw [h2] <;>
                simp [pathIsSet, addLog, initSt, hfail]
          · rcases hs with rfl | rfl | rfl | hs
            · rfl
            · rfl
            · rfl
            · obtain ⟨-, h2, -⟩ := stage2_paths env url _ (urlStem url) n _ s hs
              rcases h2 with h2 | h2 | ⟨l, fn, h2⟩ <;> rw [h2] <;>
                simp [pathIsSet, addLog, initSt, hfail]
        · -- scripts path
          by_cases h100 : (a :: as).length > 100
          all_goals
            first
              | rw [if_pos h100] at hs
              | rw [if_neg h100] at hs
          all_goals
            simp only [snapshotsOf_yield_cons, snapshotsOf_callExtract_cons,
              snapshotsOf_persistElements_cons, List.mem_cons] at hs
          · rcases hs with rfl | rfl | rfl | rfl | hs
            · rfl
            · rfl
            · rfl
            · rfl
            · obtain ⟨-, -, h3⟩ := stage2_paths env url _ (urlStem url) n _ s hs
              rcases h3 with h3 | ⟨scr, fn, h3⟩ <;> rw [h3] <;>
                simp [pathIsSet, addLog, initSt, hfail]
          · rcases hs with rfl | rfl | rfl | hs
            · rfl
            · rfl
            · rfl
            · obtain ⟨-, -, h3⟩ := stage2_paths env url _ (urlStem url) n _ s hs
              rcases h3 with h3 | ⟨scr, fn, h3⟩ <;> rw [h3] <;>
                simp [pathIsSet, addLog, initSt, hfail]

/-- Witness environment whose exporters all fail. -/
def envC9 : Env Unit :=
  { envW with
    save_elements_to_json := fun _ _ => ""
    save_test_cases_to_excel := fun _ _ => ""
    save_scripts_to_excel := fun _ _ => "" }

/-- Witness for C9: the run with failing exporters makes the same
collaborator calls as the run with working exporters, and its artifact
paths stay unset in every snapshot. -/
theorem claim_C9_witness :
    envW.extract_elements = envC9.extract_elements ∧
    envW.genTestCases = envC9.genTestCases ∧
    (∀ es fn, envC9.save_elements_to_json es fn = "") ∧
    callEventsOf (process_website envW "https://a.com" 2) =
      callEventsOf (process_website envC9 "https://a.com" 2) ∧
    (∀ s ∈ snapshotsOf (process_website envC9 "https://a.com" 2),
      pathIsSet s.elements_filepath = false) ∧
    (∀ s ∈ snapshotsOf (process_website envC9 "https://a.com" 2),
      pathIsSet s.scripts_filepath = false) :=
  ⟨rfl, rfl, fun _ _ => rfl,
    (claim_C9 envW envC9 "https://a.com" 2 rfl rfl rfl rfl rfl).1,
    (claim_C9 envC9 envC9 "https://a.com" 2 rfl rfl rfl rfl rfl).2.1
      (fun _ _ => rfl),
    (claim_C9 envC9 envC9 "https://a.com" 2 rfl rfl rfl rfl rfl).2.2.2
      (fun _ _ => rfl)⟩

/-! ## Claim C8: the per-case loop -/

/-- The table the case synthesizer returns for a run. -/
def tableOf {E : Type} (env : Env E) (url : String) (n : Nat) : List TestCase :=
  env.genTestCases (aiPayload env url) url n

/-- The valid (non-error-marker) rows of the run's table, in table
order (the filter of app.py line 366). -/
def validOf {E : Type} (env : Env E) (url : String) (n : Nat) : List TestCase :=
  (tableOf env url n).filter (fun r => !isReservedId r.id)

/-- The scripts the loop accumulates for a case list: one record per
case, in order, produced by the script synthesizer at the given
payload. -/
def scriptsFor {E : Type} (env : Env E) (url : String) (valid : List TestCase)
    (payload : String) : List Script :=
  valid.map (fun tc => { test_case_id := tc.id, code := env.genScript tc payload url })

/-- The script tables of the loop's yielded states: all equal to the
starting state's. -/
theorem loopStates_scripts {E : Type} :
    ∀ (l : List TestCase) (st : RunSt E),
      (loopStates st l).map (fun s => s.scripts_df) =
        List.replicate l.length st.scripts_df
  | [], _ => rfl
  | tc :: rest, st => by
      rw [loopStates, List.map_cons,
        loopStates_scripts rest (addLog st (perCaseLine tc))]
      simp [addLog, List.replicate_succ]

/-- For each case of the loop, a snapshot whose log ends with that
case's progress line is yielded immediately before the case's script
call, with the script table still at its pre-loop value. -/
theorem scriptLoop_adj {E : Type} (g : TestCase → String → String → String)
    (p u : String) :
    ∀ (l : List TestCase) (st : RunSt E) (tc : TestCase), tc ∈ l →
      ∃ s, [Event.yieldSnap s, Event.callScript tc p u] <:+: (scriptLoop g p u l st).1 ∧
        s.status_updates.getLast? = some (perCaseLine tc) ∧
        s.scripts_df = st.scripts_df
  | [], _, tc, h => absurd h (List.not_mem_nil tc)
  | tc' :: rest, st, tc, h => by
      rw [List.mem_cons] at h
      cases h with
      | inl h =>
          subst h
          refine ⟨addLog st (perCaseLine tc), ?_, List.getLast?_concat _, rfl⟩
          exact ⟨[], (scriptLoop g p u rest (addLog st (perCaseLine tc))).1,
            by simp [scriptLoop]⟩
      | inr h =>
          obtain ⟨s, hinf, hlast, hscr⟩ :=
            scriptLoop_adj g p u rest (addLog st (perCaseLine tc')) tc h
          exact ⟨s, List.infix_cons (List.infix_cons hinf), hlast,
            by rw [hscr]; rfl⟩

/-- Stage 3 with a non-empty valid set: the script calls are exactly
the valid cases in table order; each case gets a yielded snapshot
(log ending in its progress line, script table still empty)
immediately before its call; the snapshot script tables are empty up to
a point and then the full accumulated list (exactly twice: the stage
snapshot and the terminal snapshot); and the stage snapshot's log ends
with the count-and-path success line. -/
theorem stage3_loop_spec {E : Type} (env : Env E) (url payload stem : String)
    (gf : Bool) (st : RunSt E) (v : TestCase) (vs : List TestCase)
    (hfil : st.test_cases_df.filter (fun r => !isReservedId r.id) = v :: vs)
    (hscr : st.scripts_df = []) :
    scriptTCsOf (stage3 env url payload stem gf st) = v :: vs ∧
    (∀ tc ∈ v :: vs, ∃ s,
      [Event.yieldSnap s, Event.callScript tc payload url] <:+:
        stage3 env url payload stem gf st ∧
      s.status_updates.getLast? = some (perCaseLine tc) ∧
      s.scripts_df = []) ∧
    (∃ k, (snapshotsOf (stage3 env url payload stem gf st)).map
        (fun s => s.scripts_df) =
      List.replicate k [] ++
        [scriptsFor env url (v :: vs) payload,
         scriptsFor env url (v :: vs) payload]) ∧
    (∃ s ∈ snapshotsOf (stage3 env url payload stem gf st),
      s.status_updates.getLast? = some (scriptsSuccessLine (v :: vs).length
        (env.save_scripts_to_excel (scriptsFor env url (v :: vs) payload)
          ("test_scripts_" ++ stem ++ ".xlsx"))) ∧
      s.scripts_df = scriptsFor env url (v :: vs) payload) := by
  simp only [stage3, completion, hfil, List.isEmpty_cons, Bool.false_and,
    Bool.false_eq_true, if_false, Bool.not_false, if_true]
  refine ⟨?_, ?_, ?_, ?_⟩
  · simp only [scriptTCsOf_yield_cons, scriptTCsOf_append,
      scriptTCsOf_persistScripts_cons, scriptTCsOf_nil, scriptLoop_scriptTCs,
      List.append_nil]
  · intro tc htc
    obtain ⟨s, hinf, hlast, hs2⟩ :=
      scriptLoop_adj env.genScript payload url (v :: vs) _ tc htc
    refine ⟨s, List.infix_cons (List.infix_cons
      (hinf.trans (List.infix_append [] _ _))), hlast, ?_⟩
    rw [hs2]
    simpa [addLog] using hscr
  · refine ⟨(v :: vs).length + 1 + 1, ?_⟩
    simp only [snapshotsOf_yield_cons, snapshotsOf_append,
      snapshotsOf_persistScripts_cons, snapshotsOf_nil, scriptLoop_fstSnaps,
      List.map_cons, List.map_append, loopStates_scripts, scriptLoop_stateEq,
      scriptLoop_scriptsEq, List.replicate_succ, List.cons_append,
      List.nil_append, List.map_nil, scriptsFor, addLog, hscr]
  · simp only [snapshotsOf_yield_cons, snapshotsOf_append,
      snapshotsOf_persistScripts_cons, snapshotsOf_nil, scriptLoop_fstSnaps]
    refine ⟨_, List.mem_cons_of_mem _ (List.mem_cons_of_mem _
      (List.mem_append_right _ (List.mem_cons_self _ _))), ?_, ?_⟩
    · simp only [scriptLoop_scriptsEq, scriptsFor, List.length_map]
      exact List.getLast?_concat _
    · simp [scriptLoop_scriptsEq, scriptsFor]

/-- Stage 2 followed by a loop run: when the returned table has no
`PARSE_ERROR` row and a non-empty valid set, the four loop conclusions
hold of the stage-2 event suffix. -/
theorem stage2_loop_spec {E : Type} (env : Env E) (url payload stem : String)
    (n : Nat) (st4 : RunSt E) (v : TestCase) (vs : List TestCase)
    (hnope : ((env.genTestCases payload url n).any fun r => isParseError r.id) = false)
    (hfil : (env.genTestCases payload url n).filter (fun r => !isReservedId r.id)
      = v :: vs)
    (hscr : st4.scripts_df = []) :
    scriptTCsOf (stage2 env url payload stem n st4) = v :: vs ∧
    (∀ tc ∈ v :: vs, ∃ s,
      [Event.yieldSnap s, Event.callScript tc payload url] <:+:
        stage2 env url payload stem n st4 ∧
      s.status_updates.getLast? = some (perCaseLine tc) ∧
      s.scripts_df = []) ∧
    (∃ k, (snapshotsOf (stage2 env url payload stem n st4)).map
        (fun s => s.scripts_df) =
      List.replicate k [] ++
        [scriptsFor env url (v :: vs) payload,
         scriptsFor env url (v :: vs) payload]) ∧
    (∃ s ∈ snapshotsOf (stage2 env url payload stem n st4),
      s.status_updates.getLast? = some (scriptsSuccessLine (v :: vs).length
        (env.save_scripts_to_excel (scriptsFor env url (v :: vs) payload)
          ("test_scripts_" ++ stem ++ ".xlsx"))) ∧
      s.scripts_df = scriptsFor env url (v :: vs) payload) := by
  simp only [stage2, stage2crit]
  cases hg : env.genTestCases payload url n with
  | nil => rw [hg] at hfil; simp at hfil
  | cons t ts =>
      rw [hg] at hnope hfil
      by_cases hres : ((t :: ts).any fun r => isReservedId r.id) = true
      · simp only [generationFailed, List.isEmpty_cons, Bool.false_or, hres,
          if_true, Bool.not_false, hnope, Bool.or_false, Bool.false_eq_true,
          if_false]
        obtain ⟨o1, o2, o3, o4⟩ := stage3_loop_spec env url payload stem true
          ({ addLog (addLog st4 (stage2Line n)) warnLine with
             test_cases_df := t :: ts
             test_cases_filepath := some (env.save_test_cases_to_excel (t :: ts)
               ("test_cases_" ++ stem ++ "_error.xlsx")) })
          v vs (by simpa using hfil) (by simpa [addLog] using hscr)
        refine ⟨?_, ?_, ?_, ?_⟩
        · simp only [scriptTCsOf_yield_cons, scriptTCsOf_callCases_cons,
            scriptTCsOf_persistTestCases_cons]
          exact o1
        · intro tc htc
          obtain ⟨s, hinf, hl, hsd⟩ := o2 tc htc
          exact ⟨s, List.infix_cons (List.infix_cons (List.infix_cons
            (List.infix_cons hinf))), hl, hsd⟩
        · obtain ⟨k, hk⟩ := o3
          simp only [addLog, hscr] at hk
          refine ⟨2 + k, ?_⟩
          simp only [snapshotsOf_yield_cons, snapshotsOf_callCases_cons,
            snapshotsOf_persistTestCases_cons, List.map_cons, hk,
            List.replicate_add, List.replicate_succ, List.replicate_zero,
            List.cons_append, List.nil_append, addLog, hscr]
        · obtain ⟨s, hmem, hl, hsd⟩ := o4
          exact ⟨s, List.mem_cons_of_mem _ (List.mem_cons_of_mem _ hmem), hl, hsd⟩
      · rw [Bool.not_eq_true] at hres
        simp only [generationFailed, List.isEmpty_cons, Bool.false_or, hres,
          Bool.false_eq_true, if_false]
        obtain ⟨o1, o2, o3, o4⟩ := stage3_loop_spec env url payload stem false
          ({ addLog st4 (stage2Line n) with
             test_cases_df := t :: ts
             test_cases_filepath := some (env.save_test_cases_to_excel (t :: ts)
               ("test_cases_" ++ stem ++ ".xlsx"))
             status_updates := (addLog st4 (stage2Line n)).status_updates ++
               [tcSuccessLine (t :: ts).length (env.save_test_cases_to_excel
                 (t :: ts) ("test_cases_" ++ stem ++ ".xlsx"))] })
          v vs (by simpa using hfil) (by simpa [addLog] using hscr)
        refine ⟨?_, ?_, ?_, ?_⟩
        · simp only [scriptTCsOf_yield_cons, scriptTCsOf_callCases_cons,
            scriptTCsOf_persistTestCases_cons]
          exact o1
        · intro tc htc
          obtain ⟨s, hinf, hl, hsd⟩ := o2 tc htc
          exact ⟨s, List.infix_cons (List.infix_cons (List.infix_cons
            (List.infix_cons hinf))), hl, hsd⟩
        · obtain ⟨k, hk⟩ := o3
          simp only [addLog, hscr] at hk
          refine ⟨2 + k, ?_⟩
          simp only [snapshotsOf_yield_cons, snapshotsOf_callCases_cons,
            snapshotsOf_persistTestCases_cons, List.map_cons, hk,
            List.replicate_add, List.replicate_succ, List.replicate_zero,
            List.cons_append, List.nil_append, addLog, hscr]
        · obtain ⟨s, hmem, hl, hsd⟩ := o4
          exact ⟨s, List.mem_cons_of_mem _ (List.mem_cons_of_mem _ hmem), hl, hsd⟩

/-! ## Claim C8: the per-case script loop

The claim as frozen quantifies over every run whose filtered valid set
is non-empty.  A table containing a `PARSE_ERROR` row next to a
genuine row has a non-empty valid set, yet the critical stage-2 check
of app.py 348 fires on the `PARSE_ERROR` row and the run stops before
the loop ever starts — `claim_C8_counterexample` exhibits this.  With
the `PARSE_ERROR` rows excluded the loop behaves exactly as claimed
(`claim_C8`). -/

/-- Counterexample environment: the case synthesizer returns a
`PARSE_ERROR` row followed by a genuine row. -/
def envC8x : Env Unit :=
  { envW with
    genTestCases := fun _ _ _ =>
      [{ id := .str "PARSE_ERROR", scenario := .str "Failed to parse AI response",
         steps := .str "oops", expected := .str "N/A" },
       { id := .str "TC001", scenario := .str "nav", steps := .str "1. go",
         expected := .str "ok" }] }

/-- C8 fails as stated: this concrete run's valid set is non-empty,
yet the script synthesizer is never called, the script table is empty
in every snapshot (so it never changes to an accumulated sequence),
and the run stops at stage 2 with the stopping line. -/
theorem claim_C8_counterexample :
    invalidInput "https://a.com" = false ∧
    (validOf envC8x "https://a.com" 2).isEmpty = false ∧
    (process_website envC8x "https://a.com" 2).all (fun e => !isScriptCall e) = true ∧
    (snapshotsOf (process_website envC8x "https://a.com" 2)).all
      (fun s => s.scripts_df.isEmpty) = true ∧
    (∃ s, (snapshotsOf (process_website envC8x "https://a.com" 2)).getLast? = some s ∧
      s.status_updates.getLast? = some stopLine) := by
  refine ⟨by decide, by decide, by decide, by decide, ?_⟩
  refine ⟨_, rfl, by decide⟩

/-- The loop behaviour C8 claims of a run trace `evs` whose valid
cases are `v :: vs`: the script calls are exactly the valid cases in
table order; each case gets a yielded snapshot whose log ends in its
progress line, the script table still empty, immediately before its
call; the snapshot script tables stay empty and then change, exactly
once, to the full accumulated sequence (held by the stage snapshot and
the terminal snapshot); and some snapshot's log ends with the
count-and-path success line while holding the full sequence. -/
def LoopConclusions {E : Type} (env : Env E) (url payload stem : String)
    (v : TestCase) (vs : List TestCase) (evs : List (Event E)) : Prop :=
  scriptTCsOf evs = v :: vs ∧
  (∀ tc ∈ v :: vs, ∃ s,
    [Event.yieldSnap s, Event.callScript tc payload url] <:+: evs ∧
    s.status_updates.getLast? = some (perCaseLine tc) ∧
    s.scripts_df = []) ∧
  (∃ k, (snapshotsOf evs).map (fun s => s.scripts_df) =
    List.replicate k [] ++
      [scriptsFor env url (v :: vs) payload,
       scriptsFor env url (v :: vs) payload]) ∧
  (∃ s ∈ snapshotsOf evs,
    s.status_updates.getLast? = some (scriptsSuccessLine (v :: vs).length
      (env.save_scripts_to_excel (scriptsFor env url (v :: vs) payload)
        ("test_scripts_" ++ stem ++ ".xlsx"))) ∧
    s.scripts_df = scriptsFor env url (v :: vs) payload)

/-- `LoopConclusions` holds of the stage-2 suffix (restatement of
`stage2_loop_spec`). -/
theorem loopConclusions_stage2 {E : Type} (env : Env E) (url payload stem : String)
    (n : Nat) (st4 : RunSt E) (v : TestCase) (vs : List TestCase)
    (hnope : ((env.genTestCases payload url n).any fun r => isParseError r.id) = false)
    (hfil : (env.genTestCases payload url n).filter (fun r => !isReservedId r.id)
      = v :: vs)
    (hscr : st4.scripts_df = []) :
    LoopConclusions env url payload stem v vs (stage2 env url payload stem n st4) :=
  stage2_loop_spec env url payload stem n st4 v vs hnope hfil hscr

/-- `LoopConclusions` is preserved by prepending a yielded snapshot
whose script table is empty. -/
theorem loopConclusions_yield {E : Type} {env : Env E} {url payload stem : String}
    {v : TestCase} {vs : List TestCase} {evs : List (Event E)} (s : RunSt E)
    (hs : s.scripts_df = [])
    (h : LoopConclusions env url payload stem v vs evs) :
    LoopConclusions env url payload stem v vs (Event.yieldSnap s :: evs) := by
  obtain ⟨o1, o2, o3, o4⟩ := h
  refine ⟨by rw [scriptTCsOf_yield_cons]; exact o1, ?_, ?_, ?_⟩
  · intro tc htc
    obtain ⟨s', hinf, hl, hsd⟩ := o2 tc htc
    exact ⟨s', List.infix_cons hinf, hl, hsd⟩
  · obtain ⟨k, hk⟩ := o3
    exact ⟨k + 1, by simp [hk, hs, List.replicate_succ]⟩
  · obtain ⟨s', hmem, hl, hsd⟩ := o4
    exact ⟨s', List.mem_cons_of_mem _ hmem, hl, hsd⟩

/-- `LoopConclusions` is preserved by prepending an extractor call. -/
theorem loopConclusions_callExtract {E : Type} {env : Env E}
    {url payload stem : String} {v : TestCase} {vs : List TestCase}
    {evs : List (Event E)} (u : String)
    (h : LoopConclusions env url payload stem v vs evs) :
    LoopConclusions env url payload stem v vs (Event.callExtract u :: evs) := by
  obtain ⟨o1, o2, o3, o4⟩ := h
  refine ⟨by rw [scriptTCsOf_callExtract_cons]; exact o1, ?_, ?_, ?_⟩
  · intro tc htc
    obtain ⟨s', hinf, hl, hsd⟩ := o2 tc htc
    exact ⟨s', List.infix_cons hinf, hl, hsd⟩
  · obtain ⟨k, hk⟩ := o3
    exact ⟨k, by rw [snapshotsOf_callExtract_cons]; exact hk⟩
  · obtain ⟨s', hmem, hl, hsd⟩ := o4
    refine ⟨s', ?_, hl, hsd⟩
    rw [snapshotsOf_callExtract_cons]
    exact hmem

/-- `LoopConclusions` is preserved by prepending an elements persist. -/
theorem loopConclusions_persistElements {E : Type} {env : Env E}
    {url payload stem : String} {v : TestCase} {vs : List TestCase}
    {evs : List (Event E)} (es : List E) (f : String)
    (h : LoopConclusions env url payload stem v vs evs) :
    LoopConclusions env url payload stem v vs
      (Event.persistElements es f :: evs) := by
  obtain ⟨o1, o2, o3, o4⟩ := h
  refine ⟨by rw [scriptTCsOf_persistElements_cons]; exact o1, ?_, ?_, ?_⟩
  · intro tc htc
    obtain ⟨s', hinf, hl, hsd⟩ := o2 tc htc
    exact ⟨s', List.infix_cons hinf, hl, hsd⟩
  · obtain ⟨k, hk⟩ := o3
    exact ⟨k, by rw [snapshotsOf_persistElements_cons]; exact hk⟩
  · obtain ⟨s', hmem, hl, hsd⟩ := o4
    refine ⟨s', ?_, hl, hsd⟩
    rw [snapshotsOf_persistElements_cons]
    exact hmem

/-- **C8** (amended: the table additionally contains no `PARSE_ERROR`
row, which would otherwise stop the run at stage 2 even when valid
cases exist): on every run with a non-empty valid set, the per-case
loop processes the valid cases in table order — the run's script calls
are exactly those cases; each case's starting line is logged and a
snapshot yielded strictly before its synthesizer call with the script
table still empty; the snapshot script table stays empty and changes
exactly once, after the last case, to the full accumulated sequence;
and a stage-completion snapshot carries the count-and-path success
line together with the full sequence. -/
theorem claim_C8 {E : Type} (env : Env E) (url : String) (n : Nat)
    (v : TestCase) (vs : List TestCase)
    (hv : invalidInput url = false)
    (hx : env.extract_elements url ≠ [])
    (hnope : (tableOf env url n).any (fun r => isParseError r.id) = false)
    (hfil : validOf env url n = v :: vs) :
    LoopConclusions env url (aiPayload env url) (urlStem url) v vs
      (process_website env url n) := by
  cases hE : env.extract_elements url with
  | nil => exact absurd hE hx
  | cons a as =>
      simp only [validOf, tableOf] at hnope hfil
      by_cases h100 : (a :: as).length > 100
      · have hp : aiPayload env url = env.dumpsIndent2 (List.take 100 (a :: as)) := by
          rw [aiPayload, hE, if_pos h100]
        rw [hp] at hnope hfil ⊢
        simp only [process_website, hv, Bool.false_eq_true, if_false, hE,
          List.isEmpty_cons]
        rw [if_pos h100]
        refine loopConclusions_yield _ ?_ (loopConclusions_yield _ ?_
          (loopConclusions_callExtract _ (loopConclusions_persistElements _ _
            (loopConclusions_yield _ ?_ (loopConclusions_yield _ ?_
              (loopConclusions_stage2 env url _ (urlStem url) n _ v vs hnope hfil
                ?_)))))) <;> simp [addLog, initSt]
      · have hp : aiPayload env url = env.dumpsIndent2 (a :: as) := by
          rw [aiPayload, hE, if_neg h100]
        rw [hp] at hnope hfil ⊢
        simp only [process_website, hv, Bool.false_eq_true, if_false, hE,
          List.isEmpty_cons]
        rw [if_neg h100]
        refine loopConclusions_yield _ ?_ (loopConclusions_yield _ ?_
          (loopConclusions_callExtract _ (loopConclusions_persistElements _ _
            (loopConclusions_yield _ ?_
              (loopConclusions_stage2 env url _ (urlStem url) n _ v vs hnope hfil
                ?_))))) <;> simp [addLog, initSt]

/-- Witness for the amended C8 at a concrete run with one valid case. -/
theorem claim_C8_witness :
    invalidInput "https://a.com" = false ∧
    envW.extract_elements "https://a.com" ≠ [] ∧
    (tableOf envW "https://a.com" 2).any (fun r => isParseError r.id) = false ∧
    validOf envW "https://a.com" 2 =
      [{ id := .str "TC001", scenario := .str "nav", steps := .str "1. go",
         expected := .str "ok" }] ∧
    LoopConclusions envW "https://a.com" (aiPayload envW "https://a.com")
      (urlStem "https://a.com")
      { id := .str "TC001", scenario := .str "nav", steps := .str "1. go",
        expected := .str "ok" } []
      (process_website envW "https://a.com" 2) :=
  ⟨by decide, by decide, by decide, rfl,
    claim_C8 envW "https://a.com" 2
      { id := .str "TC001", scenario := .str "nav", steps := .str "1. go",
        expected := .str "ok" } [] (by decide) (by decide) (by decide) rfl⟩

/-! ## Claim C4: the log is append-only across snapshots

`MonoLog p evs` says the logs of the states yielded along `evs` form a
`<+:`-increasing chain starting from `p`; `lastLog p evs` is the log of
the last yielded state (or `p` when none is yielded).  Every stage of
the run satisfies `MonoLog` from its entry state's log, and `MonoLog`
entails the claimed prefix chain over the snapshots. -/

/-- The log of the last state yielded along the events, the given log
when none is yielded. -/
def lastLog {E : Type} : List String → List (Event E) → List String
  | p, [] => p
  | _, Event.yieldSnap s :: evs => lastLog s.status_updates evs
  | p, Event.callExtract _ :: evs => lastLog p evs
  | p, Event.callCases _ _ _ :: evs => lastLog p evs
  | p, Event.callScript _ _ _ :: evs => lastLog p evs
  | p, Event.persistElements _ _ :: evs => lastLog p evs
  | p, Event.persistTestCases _ _ :: evs => lastLog p evs
  | p, Event.persistScripts _ _ :: evs => lastLog p evs

/-- The logs of the yielded states grow by `<+:` along the events,
starting from `p`. -/
def MonoLog {E : Type} : List String → List (Event E) → Prop
  | _, [] => True
  | p, Event.yieldSnap s :: evs =>
      p <+: s.status_updates ∧ MonoLog s.status_updates evs
  | p, Event.callExtract _ :: evs => MonoLog p evs
  | p, Event.callCases _ _ _ :: evs => MonoLog p evs
  | p, Event.callScript _ _ _ :: evs => MonoLog p evs
  | p, Event.persistElements _ _ :: evs => MonoLog p evs
  | p, Event.persistTestCases _ _ :: evs => MonoLog p evs
  | p, Event.persistScripts _ _ :: evs => MonoLog p evs

@[simp]
theorem lastLog_nil {E : Type} (p : List String) :
    lastLog p ([] : List (Event E)) = p := rfl

@[simp]
theorem lastLog_yield_cons {E : Type} (p : List String) (s : RunSt E)
    (evs : List (Event E)) :
    lastLog p (Event.yieldSnap s :: evs) = lastLog s.status_updates evs := rfl

@[simp]
theorem lastLog_callExtract_cons {E : Type} (p : List String) (u : String)
    (evs : List (Event E)) :
    lastLog p (Event.callExtract u :: evs) = lastLog p evs := rfl

@[simp]
theorem lastLog_callCases_cons {E : Type} (p : List String) (q u : String)
    (n : Nat) (evs : List (Event E)) :
    lastLog p (Event.callCases q u n :: evs) = lastLog p evs := rfl

@[simp]
theorem lastLog_callScript_cons {E : Type} (p : List String) (tc : TestCase)
    (q u : String) (evs : List (Event E)) :
    lastLog p (Event.callScript tc q u :: evs) = lastLog p evs := rfl

@[simp]
theorem lastLog_persistElements_cons {E : Type} (p : List String) (es : List E)
    (f : String) (evs : List (Event E)) :
    lastLog p (Event.persistElements es f :: evs) = lastLog p evs := rfl

@[simp]
theorem lastLog_persistTestCases_cons {E : Type} (p : List String)
    (l : List TestCase) (f : String) (evs : List (Event E)) :
    lastLog p (Event.persistTestCases l f :: evs) = lastLog p evs := rfl

@[simp]
theorem lastLog_persistScripts_cons {E : Type} (p : List String)
    (l : List Script) (f : String) (evs : List (Event E)) :
    lastLog p (Event.persistScripts l f :: evs) = lastLog p evs := rfl

@[simp]
theorem monoLog_nil {E : Type} (p : List String) :
    MonoLog p ([] : List (Event E)) := trivial

@[simp]
theorem monoLog_yield_cons {E : Type} (p : List String) (s : RunSt E)
    (evs : List (Event E)) :
    MonoLog p (Event.yieldSnap s :: evs) ↔
      (p <+: s.status_updates ∧ MonoLog s.status_updates evs) := Iff.rfl

@[simp]
theorem monoLog_callExtract_cons {E : Type} (p : List String) (u : String)
    (evs : List (Event E)) :
    MonoLog p (Event.callExtract u :: evs) ↔ MonoLog p evs := Iff.rfl

@[simp]
theorem monoLog_callCases_cons {E : Type} (p : List String) (q u : String)
    (n : Nat) (evs : List (Event E)) :
    MonoLog p (Event.callCases q u n :: evs) ↔ MonoLog p evs := Iff.rfl

@[simp]
theorem monoLog_callScript_cons {E : Type} (p : List String) (tc : TestCase)
    (q u : String) (evs : List (Event E)) :
    MonoLog p (Event.callScript tc q u :: evs) ↔ MonoLog p evs := Iff.rfl

@[simp]
theorem monoLog_persistElements_cons {E : Type} (p : List String) (es : List E)
    (f : String) (evs : List (Event E)) :
    MonoLog p (Event.persistElements es f :: evs) ↔ MonoLog p evs := Iff.rfl

@[simp]
theorem monoLog_persistTestCases_cons {E : Type} (p : List String)
    (l : List TestCase) (f : String) (evs : List (Event E)) :
    MonoLog p (Event.persistTestCases l f :: evs) ↔ MonoLog p evs := Iff.rfl

@[simp]
theorem monoLog_persistScripts_cons {E : Type} (p : List String)
    (l : List Script) (f : String) (evs : List (Event E)) :
    MonoLog p (Event.persistScripts l f :: evs) ↔ MonoLog p evs := Iff.rfl

/-- A list's log grows along an appended trace exactly when it grows
along each part, the second starting from where the first left off. -/
theorem monoLog_append {E : Type} :
    ∀ (a : List (Event E)) (p : List String) (b : List (Event E)),
      MonoLog p (a ++ b) ↔ (MonoLog p a ∧ MonoLog (lastLog p a) b)
  | [], p, b => by simp
  | Event.yieldSnap s :: a, p, b => by
      simp [monoLog_append a s.status_updates b, and_assoc]
  | Event.callExtract u :: a, p, b => by simp [monoLog_append a p b]
  | Event.callCases q u n :: a, p, b => by simp [monoLog_append a p b]
  | Event.callScript tc q u :: a, p, b => by simp [monoLog_append a p b]
  | Event.persistElements es f :: a, p, b => by simp [monoLog_append a p b]
  | Event.persistTestCases l f :: a, p, b => by simp [monoLog_append a p b]
  | Event.persistScripts l f :: a, p, b => by simp [monoLog_append a p b]

/-- A log is a prefix of itself extended. -/
theorem log_le_append (l t : List String) : l <+: l ++ t := ⟨t, rfl⟩

/-- The head snapshot's log of a `MonoLog` trace extends the starting
log. -/
theorem monoLog_head {E : Type} :
    ∀ (p : List String) (evs : List (Event E)), MonoLog p evs →
      ∀ s, s ∈ (snapshotsOf evs).head? → p <+: s.status_updates
  | _, [], _, s, hs => by simp [snapshotsOf] at hs
  | p, Event.yieldSnap s' :: evs, h, s, hs => by
      rw [snapshotsOf_yield_cons] at hs
      simp only [List.head?_cons, Option.mem_def, Option.some.injEq] at hs
      subst hs
      exact h.1
  | p, Event.callExtract u :: evs, h, s, hs =>
      monoLog_head p evs h s (by rwa [snapshotsOf_callExtract_cons] at hs)
  | p, Event.callCases q u n :: evs, h, s, hs =>
      monoLog_head p evs h s (by rwa [snapshotsOf_callCases_cons] at hs)
  | p, Event.callScript tc q u :: evs, h, s, hs =>
      monoLog_head p evs h s (by rwa [snapshotsOf_callScript_cons] at hs)
  | p, Event.persistElements es f :: evs, h, s, hs =>
      monoLog_head p evs h s (by rwa [snapshotsOf_persistElements_cons] at hs)
  | p, Event.persistTestCases l f :: evs, h, s, hs =>
      monoLog_head p evs h s (by rwa [snapshotsOf_persistTestCases_cons] at hs)
  | p, Event.persistScripts l f :: evs, h, s, hs =>
      monoLog_head p evs h s (by rwa [snapshotsOf_persistScripts_cons] at hs)

/-- A `MonoLog` trace's snapshots form a `<+:`-chain of logs. -/
theorem chain_of_monoLog {E : Type} :
    ∀ (p : List String) (evs : List (Event E)), MonoLog p evs →
      List.Chain' (fun a b => a.status_updates <+: b.status_updates)
        (snapshotsOf evs)
  | _, [], _ => List.chain'_nil
  | _, Event.yieldSnap s :: evs, h => by
      rw [snapshotsOf_yield_cons, List.chain'_cons']
      exact ⟨fun b hb => monoLog_head s.status_updates evs h.2 b hb,
        chain_of_monoLog s.status_updates evs h.2⟩
  | p, Event.callExtract u :: evs, h => by
      rw [snapshotsOf_callExtract_cons]; exact chain_of_monoLog p evs h
  | p, Event.callCases q u n :: evs, h => by
      rw [snapshotsOf_callCases_cons]; exact chain_of_monoLog p evs h
  | p, Event.callScript tc q u :: evs, h => by
      rw [snapshotsOf_callScript_cons]; exact chain_of_monoLog p evs h
  | p, Event.persistElements es f :: evs, h => by
      rw [snapshotsOf_persistElements_cons]; exact chain_of_monoLog p evs h
  | p, Event.persistTestCases l f :: evs, h => by
      rw [snapshotsOf_persistTestCases_cons]; exact chain_of_monoLog p evs h
  | p, Event.persistScripts l f :: evs, h => by
      rw [snapshotsOf_persistScripts_cons]; exact chain_of_monoLog p evs h

/-- The per-case loop's yielded logs grow from the entry state's. -/
theorem scriptLoop_monoLog {E : Type} (g : TestCase → String → String → String)
    (p u : String) :
    ∀ (l : List TestCase) (st : RunSt E),
      MonoLog st.status_updates (scriptLoop g p u l st).1
  | [], _ => trivial
  | tc :: rest, st => by
      rw [scriptLoop]
      exact ⟨log_le_append _ _,
        scriptLoop_monoLog g p u rest (addLog st (perCaseLine tc))⟩

/-- After the per-case loop, the last yielded log is the loop's final
state's log. -/
theorem scriptLoop_lastLog {E : Type} (g : TestCase → String → String → String)
    (p u : String) :
    ∀ (l : List TestCase) (st : RunSt E),
      lastLog st.status_updates (scriptLoop g p u l st).1 =
        (scriptLoop g p u l st).2.2.status_updates
  | [], _ => rfl
  | tc :: rest, st => by
      rw [scriptLoop]
      exact scriptLoop_lastLog g p u rest (addLog st (perCaseLine tc))

/-- Stage 3's yielded logs grow from the entry state's. -/
theorem stage3_monoLog {E : Type} (env : Env E) (url payload stem : String)
    (gf : Bool) (st : RunSt E) :
    MonoLog st.status_updates (stage3 env url payload stem gf st) := by
  simp only [stage3, completion]
  refine ⟨log_le_append _ _, ?_⟩
  split
  · exact ⟨log_le_append _ _, log_le_append _ _, trivial⟩
  · split
    · refine ⟨log_le_append _ _,
        (monoLog_append _ _ _).mpr ⟨scriptLoop_monoLog _ _ _ _ _, ?_⟩⟩
      rw [scriptLoop_lastLog]
      exact ⟨log_le_append _ _, log_le_append _ _, trivial⟩
    · exact ⟨log_le_append _ _, log_le_append _ _, trivial⟩

/-- The critical check's yielded logs grow from the entry state's. -/
theorem stage2crit_monoLog {E : Type} (env : Env E) (url payload stem : String)
    (st7 : RunSt E) :
    MonoLog st7.status_updates (stage2crit env url payload stem st7) := by
  rw [stage2crit]
  split
  · exact ⟨log_le_append _ _, trivial⟩
  · exact stage3_monoLog env url payload stem true st7

/-- Stage 2's yielded logs grow from the entry state's. -/
theorem stage2_monoLog {E : Type} (env : Env E) (url payload stem : String)
    (n : Nat) (st4 : RunSt E) :
    MonoLog st4.status_updates (stage2 env url payload stem n st4) := by
  simp only [stage2]
  refine ⟨log_le_append _ _, ?_⟩
  rw [monoLog_callCases_cons]
  split
  · split
    · exact ⟨log_le_append _ _, stage2crit_monoLog env url payload stem _⟩
    · exact ⟨log_le_append _ _, stage2crit_monoLog env url payload stem _⟩
  · exact ⟨log_le_append _ _, stage3_monoLog env url payload stem false _⟩

/-- The whole run's yielded logs grow from the initial state's. -/
theorem process_website_monoLog {E : Type} (env : Env E) (url : String)
    (n : Nat) :
    MonoLog (initSt E).status_updates (process_website env url n) := by
  simp only [process_website]
  split
  · exact ⟨log_le_append _ _, trivial⟩
  · refine ⟨log_le_append _ _, log_le_append _ _, ?_⟩
    rw [monoLog_callExtract_cons]
    split
    · exact ⟨log_le_append _ _, trivial⟩
    · rw [monoLog_persistElements_cons]
      refine ⟨log_le_append _ _, ?_⟩
      split
      · exact ⟨log_le_append _ _, stage2_monoLog env url _ _ n _⟩
      · exact stage2_monoLog env url _ _ n _

/-- **C4**: in every run, the log sequence of each snapshot is a
prefix of the next snapshot's log sequence — log entries are
append-only and are never reordered or cleared within a run. -/
theorem claim_C4 {E : Type} (env : Env E) (url : String) (n : Nat) :
    List.Chain' (fun a b => a.status_updates <+: b.status_updates)
      (snapshotsOf (process_website env url n)) :=
  chain_of_monoLog _ _ (process_website_monoLog env url n)

end WebTestGen
